import Mathlib

/-!
Verification development for the `graphqls2s` schema transpiler
(`src/graphqls2s.js`): a shallow embedding of its parsing and resolution
pipeline, and theorems settling the specification's claims.

Texts are embedded as `List Char`.  The JavaScript regular expressions of the
source are embedded as explicit scanning functions; each scanner's doc comment
quotes the regex it implements, and the scanners reproduce the leftmost-match
and lazy/greedy backtracking order of the JavaScript engine.
-/

set_option maxRecDepth 10000

namespace G2S

/-- JavaScript `\s` on the character sets occurring here. -/
def isWs (c : Char) : Bool := c = ' ' || c = '\t' || c = '\n' || c = '\r'

/-- JavaScript `[a-zA-Z0-9]`. -/
def isAlnum (c : Char) : Bool :=
  ('a' ≤ c && c ≤ 'z') || ('A' ≤ c && c ≤ 'Z') || ('0' ≤ c && c ≤ '9')

/-- JavaScript `\w`, i.e. `[a-zA-Z0-9_]`. -/
def isWordC (c : Char) : Bool := isAlnum c || c = '_'

/-- `hasPre pat xs` holds when `pat` is an initial segment of `xs`. -/
def hasPre : List Char → List Char → Bool
  | [], _ => true
  | _ :: _, [] => false
  | p :: ps, x :: xs => p = x && hasPre ps xs

/-- First position of substring `pat` in `xs`: returns the part before the
occurrence together with the suffix starting at the occurrence. -/
def findSub (pat : List Char) : List Char → Option (List Char × List Char)
  | [] => if pat.isEmpty then some ([], []) else none
  | x :: xs =>
    if hasPre pat (x :: xs) then some ([], x :: xs)
    else match findSub pat xs with
      | some (pre, rest) => some (x :: pre, rest)
      | none => none

/-- JavaScript `String.prototype.replace` with a plain-string pattern:
replaces the first occurrence only. -/
def replFirst (pat rep xs : List Char) : List Char :=
  match findSub pat xs with
  | some (pre, rest) => pre ++ rep ++ rest.drop pat.length
  | none => xs

/-- Fuel-driven body of `replAll` (the fuel, initialised to the text
length, never runs out: every step consumes at least one character). -/
def replAllF (pat rep : List Char) : Nat → List Char → List Char
  | 0, xs => xs
  | _ + 1, [] => []
  | n + 1, x :: xs =>
    if pat.isEmpty then x :: xs
    else if hasPre pat (x :: xs) then
      rep ++ replAllF pat rep n (xs.drop (pat.length - 1))
    else x :: replAllF pat rep n xs

/-- Replace every (non-overlapping, left-to-right) occurrence of the plain
string `pat`, as a `/.../g` regex over a literal pattern does. -/
def replAll (pat rep xs : List Char) : List Char :=
  replAllF pat rep xs.length xs

/-- Split on a single separator character (JavaScript `split(c)`). -/
def splitCh (c : Char) : List Char → List (List Char)
  | [] => [[]]
  | x :: xs =>
    let r := splitCh c xs
    if x = c then [] :: r
    else match r with
      | [] => [[x]]
      | h :: t => (x :: h) :: t

/-- Fuel-driven body of `splitStr` (fuel initialised to the text length
never runs out). -/
def splitStrF (pat : List Char) : Nat → List Char → List (List Char)
  | 0, _ => [[]]
  | _ + 1, [] => [[]]
  | n + 1, x :: xs =>
    if pat.isEmpty then [x :: xs]
    else if hasPre pat (x :: xs) then
      [] :: splitStrF pat n (xs.drop (pat.length - 1))
    else match splitStrF pat n xs with
      | [] => [[x]]
      | h :: t => (x :: h) :: t

/-- Split on a non-empty separator string (JavaScript `split(s)`). -/
def splitStr (pat xs : List Char) : List (List Char) :=
  splitStrF pat xs.length xs

/-- JavaScript `trim()`. -/
def trimL (xs : List Char) : List Char :=
  ((xs.dropWhile (fun c => isWs c)).reverse.dropWhile (fun c => isWs c)).reverse

/-- Join with a separator (JavaScript `Array.prototype.join`). -/
def joinSep (sep : List Char) : List (List Char) → List Char
  | [] => []
  | [x] => x
  | x :: y :: t => x ++ sep ++ joinSep sep (y :: t)

/-- All decompositions `xs = pre ++ c :: suf`, ordered by increasing `pre`:
the candidate list a lazy `(.*?)c` works through. -/
def splitsAtChar (c : Char) : List Char → List (List Char × List Char)
  | [] => []
  | x :: xs =>
    (if x = c then [(([] : List Char), xs)] else []) ++
      (splitsAtChar c xs).map (fun p => (x :: p.1, p.2))

/-- All decompositions `xs = pre ++ suf`, ordered by increasing `pre`:
the candidate list a lazy `(.*?)` works through. -/
def prefixSplits : List Char → List (List Char × List Char)
  | [] => [([], [])]
  | x :: xs => ([], x :: xs) :: (prefixSplits xs).map (fun p => (x :: p.1, p.2))

/-- First candidate on which `f` succeeds (backtracking order). -/
def firstSome (f : α → Option β) : List α → Option β
  | [] => none
  | a :: as =>
    match f a with
    | some b => some b
    | none => firstSome f as

/-- Leftmost-match search: try `attempt` at every suffix, left to right
(including the empty suffix), as a JavaScript regex engine does. -/
def jsFirst (attempt : List Char → Option α) : List Char → Option α
  | [] => attempt []
  | x :: xs =>
    match attempt (x :: xs) with
    | some r => some r
    | none => jsFirst attempt xs

/-- Global matching (`/.../g`): repeatedly take the leftmost match and
continue after it.  `attempt` returns `(matchedText, rest)`; all attempts
used here produce non-empty matches, and the fuel (initialised to the text
length) is never exhausted on them. -/
def jsMatchAllF (attempt : List Char → Option (List Char × List Char)) :
    Nat → List Char → List (List Char)
  | 0, _ => []
  | _ + 1, [] =>
    match attempt [] with
    | some (m, _) => [m]
    | none => []
  | n + 1, x :: xs =>
    match attempt (x :: xs) with
    | some (m, rest) => m :: jsMatchAllF attempt n rest
    | none => jsMatchAllF attempt n xs

def jsMatchAll (attempt : List Char → Option (List Char × List Char))
    (xs : List Char) : List (List Char) :=
  jsMatchAllF attempt xs.length xs

/-- Global replace (`replace(/.../g, rep)`): each leftmost match is replaced
and scanning continues after it. -/
def jsReplaceAllF (attempt : List Char → Option (List Char × List Char))
    (rep : List Char) : Nat → List Char → List Char
  | 0, xs => xs
  | _ + 1, [] => []
  | n + 1, x :: xs =>
    match attempt (x :: xs) with
    | some (_, rest) => rep ++ jsReplaceAllF attempt rep n rest
    | none => x :: jsReplaceAllF attempt rep n xs

def jsReplaceAll (attempt : List Char → Option (List Char × List Char))
    (rep : List Char) (xs : List Char) : List Char :=
  jsReplaceAllF attempt rep xs.length xs

/-- JavaScript truthiness of a possibly-`null`/`undefined` string. -/
def jsTruthyS : Option (List Char) → Bool
  | none => false
  | some s => !s.isEmpty

/-- JavaScript template interpolation of a possibly-`null` value
(`null` prints as `"null"`). -/
def jsShowOpt : Option (List Char) → List Char
  | none => "null".data
  | some s => s

/-! ### The source's regular expressions as explicit scanners

Each scanner reproduces the JavaScript engine's behaviour on its regex:
leftmost match, alternatives in written order, `(.*?)` growing shortest
first (and unable to cross a newline, since none of the regexes uses the
`s` flag), `([^#]*?)` growing shortest first over non-`#` characters. -/

/-- One attempt, at the current position, of the block regexes
`/(extend type|type)\s(.*?){(.*?)░([^#]*?)}/mg` (and the `input` /
`interface` / `abstract` variants, and `/enum\s(.*?){(.*?)░([^#]*?)}/mg`):
`kws` lists the keyword alternatives in written order.  Returns
`(matchedText, rest)`. -/
def tryBlockKind (kws : List (List Char)) (xs : List Char) :
    Option (List Char × List Char) :=
  firstSome (fun kw =>
    if hasPre kw xs then
      match xs.drop kw.length with
      | c :: rest =>
        if isWs c then
          firstSome (fun (p1 : List Char × List Char) =>
            if p1.1.contains '\n' then none else
            firstSome (fun (p2 : List Char × List Char) =>
              if p2.1.contains '\n' then none else
              firstSome (fun (p3 : List Char × List Char) =>
                if p3.1.contains '#' then none else
                some (kw ++ c :: p1.1 ++ '{' :: p2.1 ++ '░' :: p3.1 ++ ['}'],
                  p3.2))
                (splitsAtChar '}' p2.2))
              (splitsAtChar '░' p1.2))
            (splitsAtChar '{' rest)
        else none
      | [] => none
    else none) kws

/-- `SCALAR_REGEX = /(.{1}|.{0})scalar\s(.*?)([^\s]*?)(?![a-zA-Z0-9])/mg`:
one attempt at the current position. -/
def tryScalar (xs : List Char) : Option (List Char × List Char) :=
  let inner : List Char → List Char → Option (List Char × List Char) :=
    fun pre ys =>
      if hasPre "scalar".data ys then
        match ys.drop 6 with
        | w :: rest =>
          if isWs w then
            firstSome (fun (pa : List Char × List Char) =>
              if pa.1.contains '\n' then none else
              firstSome (fun (pb : List Char × List Char) =>
                if pb.1.any (fun c => isWs c) then none else
                match pb.2 with
                | [] => some (pre ++ "scalar".data ++ w :: pa.1 ++ pb.1, [])
                | d :: _ =>
                  if isAlnum d then none
                  else some (pre ++ "scalar".data ++ w :: pa.1 ++ pb.1, pb.2))
                (prefixSplits pa.2))
              (prefixSplits rest)
          else none
        | [] => none
      else none
  match xs with
  | [] => inner [] []
  | c :: rest =>
    if c = '\n' then inner [] (c :: rest)
    else match inner [c] rest with
      | some r => some r
      | none => inner [] (c :: rest)

/-- `UNION_REGEX = /(.{1}|.{0})union([^\n]*?)\n/gm`: one attempt at the
current position. -/
def tryUnion (xs : List Char) : Option (List Char × List Char) :=
  let inner : List Char → List Char → Option (List Char × List Char) :=
    fun pre ys =>
      if hasPre "union".data ys then
        firstSome (fun (p : List Char × List Char) =>
          if p.1.contains '\n' then none else
          some (pre ++ "union".data ++ p.1 ++ ['\n'], p.2))
          (splitsAtChar '\n' (ys.drop 5))
      else none
  match xs with
  | [] => inner [] []
  | c :: rest =>
    if c = '\n' then inner [] (c :: rest)
    else match inner [c] rest with
      | some r => some r
      | none => inner [] (c :: rest)

/-- `/#(.*?)░/`: one attempt at the current position. -/
def tryCommentEsc (xs : List Char) : Option (List Char × List Char) :=
  match xs with
  | '#' :: rest =>
    firstSome (fun (p : List Char × List Char) =>
      if p.1.contains '\n' then none else
      some ('#' :: p.1 ++ ['░'], p.2)) (splitsAtChar '░' rest)
  | _ => none

/-- `/#(.*?)\n/`: one attempt at the current position (used via
`replace(/#(.*?)\n/g, '')`). -/
def tryCommentNl (xs : List Char) : Option (List Char × List Char) :=
  match xs with
  | '#' :: rest =>
    firstSome (fun (p : List Char × List Char) =>
      if p.1.contains '\n' then none else
      some ('#' :: p.1 ++ ['\n'], p.2)) (splitsAtChar '\n' rest)
  | _ => none

/-- `/#(.*?)░([^#]*?)({|:)/g` of `getCommentsBits`: one attempt at the
current position, returning `(matchedText, rest)`. -/
def tryCommentHeader (xs : List Char) : Option (List Char × List Char) :=
  match xs with
  | '#' :: rest =>
    firstSome (fun (p1 : List Char × List Char) =>
      if p1.1.contains '\n' then none else
      firstSome (fun (p2 : List Char × List Char) =>
        if p2.1.contains '#' then none else
        match p2.2 with
        | d :: after =>
          if d = '{' || d = ':' then
            some ('#' :: p1.1 ++ '░' :: p2.1 ++ [d], after)
          else none
        | [] => none) (prefixSplits p1.2)) (splitsAtChar '░' rest)
  | _ => none

/-- `GENERICTYPEREGEX = /<(.*?)>/`: leftmost match; returns
`(match[0], match[1])`. -/
def matchAngle (xs : List Char) : Option (List Char × List Char) :=
  jsFirst (fun ys =>
    match ys with
    | '<' :: rest =>
      firstSome (fun (p : List Char × List Char) =>
        if p.1.contains '\n' then none else
        some ('<' :: p.1 ++ ['>'], p.1)) (splitsAtChar '>' rest)
    | _ => none) xs

/-- The name regexes `/type\s(.*?){/`, `/input\s(.*?){/`, `/enum\s(.*?){/`,
`/interface\s(.*?){/`, `/abstract\s(.*?){/`: leftmost match; returns
`match[1]`. -/
def matchKwToBrace (kw : List Char) (xs : List Char) : Option (List Char) :=
  jsFirst (fun ys =>
    if hasPre kw ys then
      match ys.drop kw.length with
      | c :: rest =>
        if isWs c then
          firstSome (fun (p : List Char × List Char) =>
            if p.1.contains '\n' then none else some p.1)
            (splitsAtChar '{' rest)
        else none
      | [] => none
    else none) xs

/-- The greedy `(?:\s*,\s*\w+)*` suffix loop of `INHERITSREGEX`: repeatedly
consume `\s*,\s*\w+` while it matches, collecting the consumed text. -/
def inheritsTail (acc : List Char) (ys : List Char) : Nat → List Char × List Char
  | 0 => (acc, ys)
  | fuel + 1 =>
    let ws1 := ys.takeWhile (fun c => isWs c)
    let r1 := ys.drop ws1.length
    match r1 with
    | ',' :: r2 =>
      let ws2 := r2.takeWhile (fun c => isWs c)
      let r3 := r2.drop ws2.length
      let w := r3.takeWhile (fun c => isWordC c)
      if w.isEmpty then (acc, ys)
      else inheritsTail (acc ++ ws1 ++ ',' :: ws2 ++ w) (r3.drop w.length) fuel
    | _ => (acc, ys)

/-- `INHERITSREGEX = /inherits\s+\w+(?:\s*,\s*\w+)*/g`: first match's
`match[0]` (the source only reads `inheritsMatch[0]`). -/
def matchInheritsRe (xs : List Char) : Option (List Char) :=
  jsFirst (fun ys =>
    if hasPre "inherits".data ys then
      let r := ys.drop 8
      let ws := r.takeWhile (fun c => isWs c)
      if ws.isEmpty then none else
      let r2 := r.drop ws.length
      let w := r2.takeWhile (fun c => isWordC c)
      if w.isEmpty then none else
      let t := inheritsTail [] (r2.drop w.length) xs.length
      some ("inherits".data ++ ws ++ w ++ t.1)
    else none) xs

/-- `IMPLEMENTSREGEX = /implements\s(.*?)\{/mg`: first match's `match[0]`. -/
def matchImplementsRe (xs : List Char) : Option (List Char) :=
  jsFirst (fun ys =>
    if hasPre "implements".data ys then
      match ys.drop 10 with
      | c :: rest =>
        if isWs c then
          firstSome (fun (p : List Char × List Char) =>
            if p.1.contains '\n' then none else
            some ("implements".data ++ c :: p.1 ++ ['{']))
            (splitsAtChar '{' rest)
        else none
      | [] => none
    else none) xs

/-- `PROPERTYPARAMSREGEX = /\((.*?)\)/`: leftmost match; returns
`(match[0], match[1])`. -/
def matchParens (xs : List Char) : Option (List Char × List Char) :=
  jsFirst (fun ys =>
    match ys with
    | '(' :: rest =>
      firstSome (fun (p : List Char × List Char) =>
        if p.1.contains '\n' then none else
        some ('(' :: p.1 ++ [')'], p.1)) (splitsAtChar ')' rest)
    | _ => none) xs

/-- `/@.+/`: leftmost match's `match[0]` (from the first `@` that is
followed by at least one non-newline character, greedily to the line end). -/
def matchAtAny (xs : List Char) : Option (List Char) :=
  jsFirst (fun ys =>
    match ys with
    | '@' :: rest =>
      let run := rest.takeWhile (fun c => c ≠ '\n')
      if run.isEmpty then none else some ('@' :: run)
    | _ => none) xs

/-- `/@[a-zA-Z0-9_]+(.*?)$/`: leftmost match's `match[0]` (from the first
`@` followed by a word character, reaching the end of the input). -/
def matchAtWordEnd (xs : List Char) : Option (List Char) :=
  jsFirst (fun ys =>
    match ys with
    | '@' :: rest =>
      let w := rest.takeWhile (fun c => isWordC c)
      if w.isEmpty then none
      else if (rest.drop w.length).contains '\n' then none
      else some ('@' :: rest)
    | _ => none) xs

/-- `/(.*?){/`: leftmost match's `match[0]`. -/
def matchUpToBrace (xs : List Char) : Option (List Char) :=
  jsFirst (fun ys =>
    firstSome (fun (p : List Char × List Char) =>
      if p.1.contains '\n' then none else some (p.1 ++ ['{']))
      (splitsAtChar '{' ys)) xs

/-- `/{(.*?)░([^#]*?)}/` of `breakdownSchemabBit`: leftmost match's
`match[0]`. -/
def matchBlockInner (xs : List Char) : Option (List Char) :=
  jsFirst (fun ys =>
    match ys with
    | '{' :: rest =>
      firstSome (fun (p1 : List Char × List Char) =>
        if p1.1.contains '\n' then none else
        firstSome (fun (p2 : List Char × List Char) =>
          if p2.1.contains '#' then none else
          some ('{' :: p1.1 ++ '░' :: p2.1 ++ ['}']))
          (splitsAtChar '}' p1.2))
        (splitsAtChar '░' rest)
    | _ => none) xs

/-- `/\[(.*?)\]/`: leftmost match's `match[1]`. -/
def matchBracketInner (xs : List Char) : Option (List Char) :=
  jsFirst (fun ys =>
    match ys with
    | '[' :: rest =>
      firstSome (fun (p : List Char × List Char) =>
        if p.1.contains '\n' then none else some p.1)
        (splitsAtChar ']' rest)
    | _ => none) xs

/-- `/.*</`: leftmost match's `match[0]` — greedy, so it reaches the last
`<` of the first newline-free segment that has one. -/
def matchToLastLt (xs : List Char) : Option (List Char) :=
  jsFirst (fun ys =>
    let seg := ys.takeWhile (fun c => c ≠ '\n')
    let upto := (seg.reverse.dropWhile (fun c => c ≠ '<')).reverse
    if upto.isEmpty then none else some upto) xs

/-- `/kw\s+(.*?)\s+.*/` of `getSchemaEntity` (`kw` one of `type`, `enum`,
`input`, `interface`, `union`, `scalar`): leftmost match's `match[1]`.
The greedy `\s+` backtracks from its maximal run so the lazy group and the
second `\s+` can succeed. -/
def kwNameSpGroup (kw : List Char) (xs : List Char) : Option (List Char) :=
  jsFirst (fun ys =>
    if hasPre kw ys then
      let r := ys.drop kw.length
      let wsMax := r.takeWhile (fun c => isWs c)
      if wsMax.isEmpty then none else
      firstSome (fun (k : Nat) =>
        let rest := r.drop k
        firstSome (fun (p : List Char × List Char) =>
          if p.1.contains '\n' then none else
          match p.2 with
          | d :: _ => if isWs d then some p.1 else none
          | [] => none) (prefixSplits rest))
        ((List.range wsMax.length).reverse.map (fun n => n + 1))
    else none) xs

/-- `/ +(?= )/g`: every space that is followed by another space is removed,
collapsing runs of spaces to a single space. -/
def collapseSpaces : List Char → List Char
  | [] => []
  | [x] => [x]
  | x :: y :: t =>
    if x = ' ' && y = ' ' then collapseSpaces (y :: t)
    else x :: collapseSpaces (y :: t)

/-- `(\s*)(!*)(\s*)$` — the remainder after a `]` that
`SANITIZE_GEN_TYPE_REGEX` can swallow: spaces, then bangs, then spaces,
then the end of the string. -/
def sanTailOk (ys : List Char) : Bool :=
  let r1 := ys.dropWhile (fun c => isWs c)
  let r2 := r1.dropWhile (fun c => c = '!')
  let r3 := r2.dropWhile (fun c => isWs c)
  r3.isEmpty

/-- Scanning loop of `jsSanitizeGen`; `atStart` records whether the `^` of
`^\[` can still match. -/
def sanGo : Bool → List Char → List Char
  | _, [] => []
  | atStart, c :: rest =>
    if atStart && c = '[' then sanGo false rest
    else if isWs c then sanGo false rest
    else if c = ']' && sanTailOk rest then []
    else if c = '!' then sanGo false rest
    else c :: sanGo false rest

/-- `SANITIZE_GEN_TYPE_REGEX = /^\[|\s|\](\s*)(!*)(\s*)$|!/g` as used by
`isTypeGeneric`'s `replace(..., '')`: removes a `[` at position 0, every
whitespace character, every `!`, and a `]` whose entire remainder consists
of spaces, then bangs, then spaces. -/
def jsSanitizeGen (xs : List Char) : List Char :=
  sanGo true xs

/-- Fuel-driven body of `unionStrip` (fuel initialised to the text length
never runs out). -/
def unionStripF : Nat → Bool → List Char → List Char
  | 0, _, xs => xs
  | _ + 1, _, [] => []
  | n + 1, atStart, c :: rest =>
    if atStart && c = 'u' && hasPre "union".data (c :: rest) &&
        (match rest.drop 4 with | w :: _ => isWs w | [] => false) then
      unionStripF n false (rest.drop 5)
    else if isWs c && hasPre "union".data rest &&
        (match rest.drop 5 with | w :: _ => isWs w | [] => false) then
      unionStripF n false (rest.drop 6)
    else if c = '\n' then unionStripF n false rest
    else c :: unionStripF n false rest

/-- `str.replace(/(^union\s|\sunion\s|\n)/g, '')` of `breakdownUnionBit`. -/
def unionStrip (atStart : Bool) (xs : List Char) : List Char :=
  unionStripF xs.length atStart xs

/-- `t.replace(/@.+/, '')`: remove the (first) directive suffix. -/
def stripAtFirst (t : List Char) : List Char :=
  match matchAtAny t with
  | some m => replFirst m [] t
  | none => t

/-- `/!$/` test. -/
def endsBang (xs : List Char) : Bool :=
  match xs.reverse with
  | '!' :: _ => true
  | _ => false

/-- JavaScript `toLowerCase` / `toUpperCase` on the ASCII kind names. -/
def lowerL (xs : List Char) : List Char := xs.map Char.toLower

def upperL (xs : List Char) : List Char := xs.map Char.toUpper

/-! ### Data model

The dynamic JavaScript objects of the source, with `null`/`undefined`
fields embedded as `Option` and JavaScript truthiness made explicit. -/

/-- One metadata annotation produced by the external `graphmetadata`
collaborator (`removeGraphMetadata`).  Only the fields the core reads are
kept; `parentType`/`parentName` embed `parent.type`/`parent.name`. -/
structure Metadata where
  name : List Char
  body : List Char
  schemaType : List Char
  schemaName : List Char
  parentType : Option (List Char)
  parentName : Option (List Char)
  directive : Bool
deriving DecidableEq

/-- Result of `getTypeDetails` (and, shape-wise, the parameter results of
`getTranspiledParams`, which share the same memo: those store no
`dependsOnParent`/`directive`/`metadata`/`genericParentTypes` fields, i.e.
`false`/`none` here, and their unused `paramName` field is dropped). -/
structure TypeDetails where
  originName : Option (List Char)
  directive : Option (List Char)
  isGen : Bool
  dependsOnParent : Bool
  metadata : Option (List Metadata)
  genericParentTypes : Option (List (List Char))
  name : List Char
deriving DecidableEq

/-- The `details` record of a parsed property. -/
structure PropDetails where
  name : List Char
  metadata : Option Metadata
  params : Option (List Char)
  result : TypeDetails
deriving DecidableEq

/-- One parsed property (`{ comments, details, value }`). -/
structure Property where
  comments : List Char
  details : PropDetails
  value : List Char
deriving DecidableEq

/-- The non-recursive fields of a schema object.  `extend`, `directive`,
`comments`, `originalBlockProps` and `raw` are absent (`undefined`) on the
objects that never receive them. -/
structure SchemaData where
  type : List Char
  extend : Option Bool
  name : List Char
  metadata : Option Metadata
  directive : Option (List Char)
  genericType : Option (List Char)
  blockProps : List Property
  implements : Option (List (List Char))
  comments : Option (List Char)
  originalBlockProps : Option (List Property)
  raw : Option (List Char)
deriving DecidableEq

mutual
/-- A schema object: its data plus its `inherits` field, which the source
first holds as a list of parent names and later (in
`getObjWithExtensions`) overwrites with the list of resolved parent
objects. -/
inductive SchemaObj : Type where
  | mk : SchemaData → Option InheritsF → SchemaObj

/-- The two shapes of the dynamic `inherits` field. -/
inductive InheritsF : Type where
  | names : List (List Char) → InheritsF
  | objs : List SchemaObj → InheritsF
end

def SchemaObj.data : SchemaObj → SchemaData
  | .mk d _ => d

def SchemaObj.inheritsF : SchemaObj → Option InheritsF
  | .mk _ i => i

def SchemaObj.name (o : SchemaObj) : List Char := o.data.name

def SchemaObj.type (o : SchemaObj) : List Char := o.data.type

def SchemaObj.blockProps (o : SchemaObj) : List Property := o.data.blockProps

def SchemaObj.genericType (o : SchemaObj) : Option (List Char) := o.data.genericType

def SchemaObj.implementsL (o : SchemaObj) : Option (List (List Char)) := o.data.implements

def SchemaObj.metadata (o : SchemaObj) : Option Metadata := o.data.metadata

/-- A raw declaration fragment produced by `getSchemaBits`.  The dynamic
`block` is a list of lines for block declarations and a plain string for
`scalar`/`union` bits. -/
inductive BlockV where
  | lines : List (List Char) → BlockV
  | str : List Char → BlockV
deriving DecidableEq

structure Bit where
  property : List Char
  block : BlockV
  extend : Bool
deriving DecidableEq

def BlockV.linesD : BlockV → List (List Char)
  | .lines l => l
  | .str _ => []

def BlockV.strD : BlockV → List Char
  | .str s => s
  | .lines _ => []

/-- A memo entry of `createNewSchemaObjectFromGeneric`
(`{ obj, stringObj }` on the non-trivial path). -/
structure GenEntry where
  obj : SchemaObj
  stringObj : List Char

/-- The process-wide mutable caches of the source module, plus the counter
backing the modelled `newShortId`. -/
structure St where
  sCache : List (List Char × List Char)
  genericNameAliases : List (List Char × List Char)
  aliasesMemo : Option (List Metadata)
  genericSchemaObjects : List (List Char × TypeDetails)
  extendedObject : List (List Char × SchemaObj)
  interfaceWithAncestors : List (List Char × List (List Char))
  shortIdCtr : Nat

def St.fresh : St := ⟨[], [], none, [], [], [], 0⟩

/-- The exceptions (`throw new Error(msg)`) of the source, one constructor
per distinct message shape, carrying the interpolated data. -/
inductive Err where
  | missingBlock
  | syntaxNoTypeDef (property : List Char)
  | missingName (typeName : List Char)
  | cannotFindInherited (objType objName missing : List Char)
  | invalidInheritance (objType objName subType subName : List Char)
  | interfaceNotDefined (iface : List Char)
  | notAnInterface (iface : List Char)
  | arityMismatchConcrete (letters concrete : List Char)
  | arityMismatchGenericType (letters genericType : List Char)
  | typeLetterMismatch (genericType letters : List Char)
  | cannotFindGenericType (originName : List Char)
  | cannotFindGenericDef (genObjName : List Char)
  | notGeneric (name : List Char)
  | jsTypeError
  | fuel
deriving DecidableEq

/-- The effect monad of the embedding: the process-wide state is threaded
through, and an exception aborts the computation while (as in JavaScript)
keeping all state mutations made before the throw. -/
def M (α : Type) : Type := St → Except Err α × St

instance : Monad M where
  pure a := fun s => (.ok a, s)
  bind x f := fun s =>
    match x s with
    | (.ok a, s') => f a s'
    | (.error e, s') => (.error e, s')

def M.throw (e : Err) : M α := fun s => (.error e, s)

def M.getSt : M St := fun s => (.ok s, s)

def M.modifySt (f : St → St) : M Unit := fun s => (.ok (), f s)

def liftE : Except Err α → M α
  | .ok a => pure a
  | .error e => M.throw e

instance {ε α : Type} [DecidableEq ε] [DecidableEq α] :
    DecidableEq (Except ε α) := fun x y =>
  match x, y with
  | .ok a, .ok b =>
    if h : a = b then isTrue (by rw [h])
    else isFalse (fun hc => h (Except.ok.inj hc))
  | .error e, .error f =>
    if h : e = f then isTrue (by rw [h])
    else isFalse (fun hc => h (Except.error.inj hc))
  | .ok _, .error _ => isFalse (fun hc => Except.noConfusion hc)
  | .error _, .ok _ => isFalse (fun hc => Except.noConfusion hc)

/-- Effectful map, in list order (the source's `map`/`forEach` with
cache-mutating bodies). -/
def mmap (f : α → M β) : List α → M (List β)
  | [] => pure []
  | a :: as => do
    let b ← f a
    let bs ← mmap f as
    pure (b :: bs)

/-- Ordered association list standing in for a JavaScript object used as a
dictionary: string keys in insertion order. -/
def lookupA (m : List (List Char × α)) (k : List Char) : Option α :=
  match m with
  | [] => none
  | (k', v) :: t => if k' = k then some v else lookupA t k

def insertA (m : List (List Char × α)) (k : List Char) (v : α) :
    List (List Char × α) :=
  match m with
  | [] => [(k, v)]
  | (k', v') :: t => if k' = k then (k', v) :: t else (k', v') :: insertA t k v

/-! ### Modelled external collaborators (not under `src/`) -/

/-- Modelled from the spec: the external Escaper
`escape(text, lineBreakMarker, tabMarker)` of `utilities.js` (spec §6), a
pure, idempotent, reversible transform neutralising newlines and tabs;
embedded as replacing every newline with the line-break marker and every
tab with the tab marker. -/
def escapeGraphQlSchema (sch cr t : List Char) : List Char :=
  replAll "\t".data t (replAll "\n".data cr sch)

/-- Modelled from the spec: `newShortId` of `utilities.js`, which only
needs to produce identifiers that are fresh within one invocation;
embedded as a counter held in the state. -/
def newShortId : M (List Char) := fun s =>
  (.ok ("sid".data ++ (Nat.repr s.shortIdCtr).data),
    { s with shortIdCtr := s.shortIdCtr + 1 })

/-- Modelled from the spec: `removeGraphMetadata` of `graphmetadata.js`
(spec §6, the metadata extractor), which returns the annotation-free text
plus the extracted annotations; on annotation-free input — the only kind
exercised here — it returns the text unchanged and no annotations. -/
def removeGraphMetadata (sch : List Char) : List Char × List Metadata :=
  (sch, [])

/-! ### The pipeline -/

def carrReturnEsc : List Char := "░".data

def tabEsc : List Char := "_t_".data

/-- `escapeGraphQlSchemaPlus`: the escape cache `_s`. -/
def escapeGraphQlSchemaPlus (sch cr t : List Char) : M (List Char) := fun s =>
  if sch.isEmpty then (.ok sch, s)
  else match lookupA s.sCache sch with
    | some v => (.ok v, s)
    | none =>
      let v := escapeGraphQlSchema sch cr t
      (.ok v, { s with sCache := insertA s.sCache sch v })

/-- The comment-token substitution of `getSchemaBits`: each comment match
is replaced (first occurrence) by a fresh token, collecting
`(token, originalText)` pairs. -/
def tokenizeComments : List Char → List (List Char) →
    M (List Char × List (List Char × List Char))
  | schema, [] => pure (schema, [])
  | schema, m :: ms => do
    let id ← newShortId
    let tok := '#' :: id ++ ['░']
    let schema' := replFirst m tok schema
    let p ← tokenizeComments schema' ms
    pure (p.1, (tok, m) :: p.2)

/-- Step 3 of `getSchemaBits`: restore the escaped comments inside one
match. -/
def restoreTokens (tokens : List (List Char × List Char)) (b : List Char) :
    List Char :=
  (jsMatchAll tryCommentEsc b).foldl (fun acc m =>
    match tokens.find? (fun t => t.1 = m) with
    | some t => if t.2.isEmpty then acc else replFirst m t.2 acc
    | none => acc) b

/-- `breakdownSchemabBit`. -/
def breakdownSchemabBit (str : List Char) : Except Err Bit :=
  match matchBlockInner str with
  | none => .error .missingBlock
  | some blockMatch =>
    let b1 := replAll "_t_".data [] blockMatch
    let b2 := if hasPre "\x7b".data b1 then b1.drop 1 else b1
    let b3 := match b2.reverse with
      | '}' :: t => t.reverse
      | _ => b2
    let block := ((splitCh '░' b3).map trimL).filter (fun x => !x.isEmpty)
    let rawProperty := trimL (collapseSpaces
      (joinSep " ".data (splitStr "_t_".data
        (joinSep " ".data (splitCh '░' str)))))
    if hasPre "extend".data rawProperty then
      .ok ⟨replFirst "extend ".data [] rawProperty, .lines block, true⟩
    else
      .ok ⟨rawProperty, .lines block, false⟩

/-- `breakdownScalarBit`. -/
def breakdownScalarBit (str : List Char) : Bit :=
  let block := match (splitCh ' ' str).reverse with
    | b :: _ => b
    | [] => []
  ⟨"scalar ".data ++ block, .str block, false⟩

/-- `breakdownUnionBit`. -/
def breakdownUnionBit (str : List Char) : Bit :=
  let block := trimL (unionStrip true str)
  ⟨"union ".data ++ block, .str block, false⟩

/-- Steps 1–4 of `getSchemaBits` for one block-kind regex. -/
def blockBitsFor (kws : List (List Char)) (escSchema : List Char)
    (tokens : List (List Char × List Char)) : Except Err (List Bit) :=
  (jsMatchAll (tryBlockKind kws) escSchema).mapM
    (fun b => breakdownSchemabBit (restoreTokens tokens b))

/-- Steps 1–4 of `getSchemaBits` for `SCALAR_REGEX`. -/
def scalarBits (escNoComments : List Char)
    (tokens : List (List Char × List Char)) : List Bit :=
  (((jsMatchAll tryScalar escNoComments).filter (fun m =>
      hasPre "scalar".data m ||
        !(match m with | c :: _ => isAlnum c | [] => false))).map
    (fun b => breakdownScalarBit (restoreTokens tokens b)))

/-- Steps 1–4 of `getSchemaBits` for `UNION_REGEX`. -/
def unionBits (schemaNoComments : List Char)
    (tokens : List (List Char × List Char)) : List Bit :=
  (((jsMatchAll tryUnion schemaNoComments).filter (fun m =>
      hasPre "union".data m ||
        !(match m with | c :: _ => isAlnum c | [] => false))).map
    (fun b => breakdownUnionBit (restoreTokens tokens b)))

/-- `getSchemaBits`. -/
def getSchemaBits (sch : List Char) : M (List Bit) := do
  let escapedSchemaWithComments ← escapeGraphQlSchemaPlus sch carrReturnEsc tabEsc
  let cms := jsMatchAll tryCommentEsc escapedSchemaWithComments
  let p ← tokenizeComments escapedSchemaWithComments cms
  let escSchema := p.1
  let tokens := p.2
  let schemaWithoutComments := ' ' :: jsReplaceAll tryCommentNl [] sch ++ ['\n']
  let escapedSchemaWithoutComments ←
    escapeGraphQlSchemaPlus schemaWithoutComments carrReturnEsc tabEsc
  let typeB ← liftE (blockBitsFor ["extend type".data, "type".data] escSchema tokens)
  let inputB ← liftE (blockBitsFor ["extend input".data, "input".data] escSchema tokens)
  let enumB ← liftE (blockBitsFor ["enum".data] escSchema tokens)
  let interfaceB ← liftE (blockBitsFor ["extend interface".data, "interface".data] escSchema tokens)
  let abstractB ← liftE (blockBitsFor ["extend abstract".data, "abstract".data] escSchema tokens)
  let scalarB := scalarBits escapedSchemaWithoutComments tokens
  let unionB := unionBits schemaWithoutComments tokens
  pure (typeB ++ inputB ++ enumB ++ interfaceB ++ abstractB ++ scalarB ++ unionB)

/-- The `(kind, name)` owner reference produced by `getSchemaEntity`. -/
structure EntityRef where
  type : Option (List Char)
  name : Option (List Char)
deriving DecidableEq

/-- `getSchemaEntity`.  A header matching one of the keywords but not the
name regex makes the source dereference `null` — embedded as a
`jsTypeError`. -/
def getSchemaEntity (firstLine : List Char) : Except Err EntityRef :=
  if hasPre "type".data firstLine then
    match kwNameSpGroup "type".data firstLine with
    | some g => .ok ⟨some "TYPE".data, some (trimL g)⟩
    | none => .error .jsTypeError
  else if hasPre "enum".data firstLine then
    match kwNameSpGroup "enum".data firstLine with
    | some g => .ok ⟨some "ENUM".data, some (trimL g)⟩
    | none => .error .jsTypeError
  else if hasPre "input".data firstLine then
    match kwNameSpGroup "input".data firstLine with
    | some g => .ok ⟨some "INPUT".data, some (trimL g)⟩
    | none => .error .jsTypeError
  else if hasPre "interface".data firstLine then
    match kwNameSpGroup "interface".data firstLine with
    | some g => .ok ⟨some "INTERFACE".data, some (trimL g)⟩
    | none => .error .jsTypeError
  else if hasPre "union".data firstLine then
    match kwNameSpGroup "union".data firstLine with
    | some g => .ok ⟨some "UNION".data, some (trimL g)⟩
    | none => .error .jsTypeError
  else if hasPre "scalar".data firstLine then
    match kwNameSpGroup "scalar".data firstLine with
    | some g => .ok ⟨some "SCALAR".data, some (trimL g)⟩
    | none => .error .jsTypeError
  else .ok ⟨none, none⟩

/-- A comment block attached to a declaration header
(`{ text, property }` of `getCommentsBits`). -/
structure CommentBit where
  text : List Char
  property : EntityRef
deriving DecidableEq

/-- `getCommentsBits`. -/
def getCommentsBits (sch : List Char) : M (List CommentBit) := do
  let esc ← escapeGraphQlSchemaPlus sch carrReturnEsc tabEsc
  let ms := (jsMatchAll tryCommentHeader esc).filter (fun x =>
    match x.reverse with | '{' :: _ => true | _ => false)
  let entries ← mmap (fun c => do
      let parts := ((splitCh '░' c).map
        (fun l => trimL (replAll "_t_".data "    ".data l))).filter
          (fun x => !x.isEmpty)
      let hashCount := parts.foldl
        (fun a b => a + (if hasPre "#".data b then 1 else 0)) 0
      let ent ← liftE (getSchemaEntity (parts.getLast?.getD []))
      pure (parts.dropLast, ent, hashCount == parts.length - 1)) ms
  pure ((entries.filter (fun e => e.2.2)).map
    (fun e => ⟨joinSep "\n".data e.1, e.2.1⟩))

/-- `genericDefaultNameAlias`. -/
def genericDefaultNameAlias (genName : List Char) : List Char :=
  if genName.isEmpty then [] else
  match matchAngle genName with
  | some (m0, m1) =>
    let parts := splitStr m0 genName
    (parts.headD []) ++ joinSep [] ((splitCh ',' m1).map trimL)
  | none => genName

/-- `getGenericAlias`.  With no alias body it returns the default alias
function.  With a body the source `eval`s user-supplied JavaScript
(flagged by the spec, §9, as to be replaced by a plain callback); no
verified input carries `alias` metadata, and the evaluated branch is
Modelled from the spec as the default alias function. -/
def getGenericAlias (s : Option (List Char)) : List Char → List Char :=
  fun genName =>
    match s with
    | none => genericDefaultNameAlias genName
    | some _ =>
      match matchAngle genName with
      | some _ => genericDefaultNameAlias genName
      | none => genName

/-- `getAllAliases` (memoised in `memoizedAliases`). -/
def getAllAliases (metadata : Option (List Metadata)) : M (List Metadata) :=
  fun s =>
    match s.aliasesMemo with
    | some v => (.ok v, s)
    | none =>
      let aliases := (metadata.getD []).filter (fun m => m.name = "alias".data)
      (.ok aliases, { s with aliasesMemo := some aliases })

/-- Computation path of `getAliasName` (its memo-miss branch). -/
def getAliasNameCompute (genericType : List Char)
    (metadata : Option (List Metadata)) : M (List Char) := do
  match matchToLastLt genericType with
  | none => M.throw .jsTypeError
  | some genericStart =>
    let aliases ← getAllAliases metadata
    let aliasObj := aliases.find? (fun x => hasPre genericStart x.schemaName)
    let aliasV := match aliasObj with
      | some a =>
        if !a.body.isEmpty then getGenericAlias (some a.body) genericType
        else genericDefaultNameAlias genericType
      | none => genericDefaultNameAlias genericType
    M.modifySt (fun s =>
      { s with genericNameAliases := insertA s.genericNameAliases genericType aliasV })
    pure aliasV

/-- `getAliasName` (memoised in `memoizedGenericNameAliases`; a falsy —
empty — cached alias is recomputed, as `||` does). -/
def getAliasName (genericType : List Char)
    (metadata : Option (List Metadata)) : M (List Char) := do
  let s ← M.getSt
  match lookupA s.genericNameAliases genericType with
  | some v => if v.isEmpty then getAliasNameCompute genericType metadata else pure v
  | none => getAliasNameCompute genericType metadata

/-- `getTypeDetails`. -/
def getTypeDetails (t : List Char) (metadata : Option (List Metadata))
    (genericParentTypes : Option (List (List Char))) : M TypeDetails := do
  let genTypes := (matchAngle t).map (fun p => p.2)
  let isGen := jsTruthyS genTypes
  let genericTypes := if isGen then some ((splitCh ',' (genTypes.getD [])).map trimL) else none
  let originName := trimL (stripAtFirst t)
  let directive := matchAtAny t
  let endingChar := if endsBang originName then "!".data else ([] : List Char)
  let dependsOnParent := isGen && (match genericParentTypes with
    | some gp => !gp.isEmpty &&
        (genericTypes.getD []).any (fun x => gp.any (fun y => y = x))
    | none => false)
  let name ← if isGen && !dependsOnParent then do
      let a ← getAliasName originName metadata
      pure (a ++ endingChar)
    else pure originName
  let result : TypeDetails :=
    ⟨some originName, directive, isGen, dependsOnParent, metadata,
      genericParentTypes, name⟩
  if isGen then
    M.modifySt (fun s =>
      match lookupA s.genericSchemaObjects name with
      | some _ => s
      | none =>
        { s with genericSchemaObjects := insertA s.genericSchemaObjects name result })
  pure result

/-- Body of `getTranspiledParams` for one parameter (its `forEach`).
`genTypes` is the full split list — which the source itself uses for
`genericTypes`.  A parameter without `:` makes the source dereference
`undefined` — embedded as `jsTypeError`. -/
def transParamOne (genTypes : List (List Char))
    (genericParentTypes : Option (List (List Char))) (genType : List Char) :
    M (List Char) := do
  let genericTypeMatches := matchAngle genType
  let isGen := genericTypeMatches.isSome
  let genericTypes := if isGen then some (genTypes.map trimL) else none
  let parts := (splitCh ':' genType).map trimL
  match parts with
  | [] => M.throw .jsTypeError
  | paramName :: rest =>
    match rest with
    | [] => M.throw .jsTypeError
    | originName :: _ =>
      let endingChar := if endsBang originName then "!".data else ([] : List Char)
      let dependsOnParent := isGen && (match genericParentTypes with
        | some gp => !gp.isEmpty &&
            (genericTypes.getD []).any (fun x => gp.any (fun y => y = x))
        | none => false)
      let name ← if isGen && !dependsOnParent then do
          let a ← getAliasName originName none
          pure (a ++ endingChar)
        else pure originName
      let result : TypeDetails :=
        ⟨some originName, none, isGen, false, none, none, name⟩
      if isGen then
        M.modifySt (fun s =>
          match lookupA s.genericSchemaObjects name with
          | some _ => s
          | none =>
            { s with genericSchemaObjects := insertA s.genericSchemaObjects name result })
      pure (paramName ++ ": ".data ++ name)

/-- `getTranspiledParams`. -/
def getTranspiledParams (params : List Char)
    (genericParentTypes : Option (List (List Char))) : M (List Char) := do
  let genTypes := splitCh ',' params
  let transpiledParams ← mmap (transParamOne genTypes genericParentTypes) genTypes
  pure (joinSep ", ".data transpiledParams)

/-- `getPropertyValue`. -/
def getPropertyValue (d : PropDetails)
    (mapResultName : Option (List Char → List Char)) : List Char :=
  let leftPart := d.name ++ (match d.params with
    | some p => if p.isEmpty then [] else '(' :: p ++ [')']
    | none => [])
  if !d.result.name.isEmpty then
    let r0 := match mapResultName with
      | some f => f d.result.name
      | none => d.result.name
    let r1 := match d.result.directive with
      | some dir => if dir.isEmpty then r0 else r0 ++ ' ' :: dir
      | none => r0
    leftPart ++ ": ".data ++ r1
  else leftPart

/-- The reducer of `getBlockProperties`: each line is a comment collected
for the next property, or a property line broken into name, parameters
and result type. -/
def blockPropsGo (meta : List Metadata)
    (genericTypes : Option (List (List Char)))
    (metadata : Option (List Metadata)) :
    List (List Char) → List (List Char) → M (List Property)
  | _, [] => pure []
  | comments, part :: rest => do
    let p := trimL part
    if hasPre "#".data p then
      blockPropsGo meta genericTypes metadata (comments ++ [p]) rest
    else
      let mData := (meta.filter (fun m => m.schemaName = p)).head?
      let prop :=
        let c1 := collapseSpaces p
        match c1.reverse with
        | ',' :: t => t.reverse
        | _ => c1
      let propDetails ← match matchParens (stripAtFirst prop) with
        | some (m0, m1) => do
          let parts := splitStr m0 prop
          let params ← getTranspiledParams m1 genericTypes
          let res ← getTypeDetails
            (trimL (replFirst ":".data [] ((parts.drop 1).headD []))) metadata
            genericTypes
          pure (⟨trimL (parts.headD []), mData, some params, res⟩ : PropDetails)
        | none => do
          let parts := splitCh ':' prop
          let res ← getTypeDetails (trimL (joinSep ":".data (parts.drop 1)))
            metadata genericTypes
          pure (⟨trimL (parts.headD []), mData, none, res⟩ : PropDetails)
      let property : Property :=
        ⟨joinSep "\n    ".data comments, propDetails,
          getPropertyValue propDetails none⟩
      let restProps ← blockPropsGo meta genericTypes metadata [] rest
      pure (property :: restProps)

/-- `getBlockProperties`. -/
def getBlockProperties (blockParts : List (List Char))
    (baseObjType baseObjName : List Char)
    (baseObjGenericTypes : Option (List (List Char)))
    (metadata : Option (List Metadata)) : M (List Property) :=
  let meta := (metadata.getD []).filter (fun m =>
    m.schemaType = "PROPERTY".data && m.parentType = some baseObjType &&
      m.parentName = some baseObjName)
  blockPropsGo meta baseObjGenericTypes metadata [] blockParts

/-- `getSchemaObject`. -/
def getSchemaObject (definitions : List Bit) (typeName : List Char)
    (nameRegEx : Option (List Char → Option (List Char)))
    (metadata : Option (List Metadata)) : M (List SchemaObj) :=
  mmap (fun d =>
    if typeName = "scalar".data then
      pure (SchemaObj.mk
        ⟨"SCALAR".data, some false, d.block.strD, none, none, none, [],
          none, none, none, none⟩ none)
    else if typeName = "union".data then
      pure (SchemaObj.mk
        ⟨"UNION".data, some false, d.block.strD, none, none, none, [],
          none, none, none, none⟩ none)
    else
      match matchUpToBrace d.property with
      | none => M.throw (.syntaxNoTypeDef d.property)
      | some typeDef =>
        if typeDef.contains '#' then M.throw (.syntaxNoTypeDef d.property)
        else match nameRegEx with
        | none => M.throw .jsTypeError
        | some rex =>
          match rex typeDef with
          | none => M.throw (.missingName typeName)
          | some nm1 => do
            let name := (splitCh ' ' (trimL nm1)).headD []
            let isGenericType := (matchAngle name).map (fun p => p.2)
            let superClass := (matchInheritsRe typeDef).map (fun im =>
              (splitCh ',' (trimL (replFirst "inherits".data [] im))).map trimL)
            let directive := match matchAtWordEnd typeDef with
              | some dm =>
                let d1 := trimL dm
                let d2 := match d1.reverse with
                  | '{' :: t => t.reverse
                  | _ => d1
                let d3 := trimL d2
                if d3.isEmpty then none else some d3
              | none => none
            let interfaceL := (matchImplementsRe typeDef).map (fun im =>
              (splitCh ','
                (replFirst "\x7b".data [] (replFirst "implements ".data [] im))).map
                (fun x => (splitCh ' ' (trimL x)).headD []))
            let objectType := upperL typeName
            let metadat := match metadata with
              | some ml => (ml.filter (fun m =>
                  m.schemaType = objectType && m.schemaName = name)).head?
              | none => none
            let genericTypes := match isGenericType with
              | some g =>
                if g.isEmpty then none
                else some ((splitCh ',' g).map trimL)
              | none => none
            let blockProps ← getBlockProperties d.block.linesD objectType name
              genericTypes metadata
            pure (SchemaObj.mk
              ⟨objectType, some d.extend, name, metadat, directive,
                isGenericType, blockProps, interfaceL, none, none, none⟩
              (superClass.map .names)))
    (definitions.filter (fun d => hasPre typeName d.property))

def getInterfaces (d : List Bit) (m : Option (List Metadata)) : M (List SchemaObj) :=
  getSchemaObject d "interface".data (some (matchKwToBrace "interface".data)) m

def getAbstracts (d : List Bit) (m : Option (List Metadata)) : M (List SchemaObj) :=
  getSchemaObject d "abstract".data (some (matchKwToBrace "abstract".data)) m

def getTypes (d : List Bit) (m : Option (List Metadata)) : M (List SchemaObj) :=
  getSchemaObject d "type".data (some (matchKwToBrace "type".data)) m

def getInputs (d : List Bit) (m : Option (List Metadata)) : M (List SchemaObj) :=
  getSchemaObject d "input".data (some (matchKwToBrace "input".data)) m

def getEnums (d : List Bit) (m : Option (List Metadata)) : M (List SchemaObj) :=
  getSchemaObject d "enum".data (some (matchKwToBrace "enum".data)) m

def getScalars (d : List Bit) (m : Option (List Metadata)) : M (List SchemaObj) :=
  getSchemaObject d "scalar".data none m

def getUnions (d : List Bit) (m : Option (List Metadata)) : M (List SchemaObj) :=
  getSchemaObject d "union".data none m

def SchemaObj.directiveOpt (o : SchemaObj) : Option (List Char) := o.data.directive

def SchemaObj.commentsOpt (o : SchemaObj) : Option (List Char) := o.data.comments

def SchemaObj.extendOpt (o : SchemaObj) : Option Bool := o.data.extend

def SchemaObj.rawOpt (o : SchemaObj) : Option (List Char) := o.data.raw

/-- `addComments`: attach the first matching comment block (or
`undefined`). -/
def addComments (obj : SchemaObj) (comments : List CommentBit) : SchemaObj :=
  let c := ((comments.filter (fun cb =>
    cb.property.type = some obj.type && cb.property.name = some obj.name)).map
      (fun cb => cb.text)).head?
  SchemaObj.mk { obj.data with comments := c } obj.inheritsF

/-- Index of the first occurrence of a character (JavaScript `indexOf`,
with `none` for `-1`). -/
def idxOf (c : Char) : List Char → Option Nat
  | [] => none
  | x :: xs => if x = c then some 0 else (idxOf c xs).map (fun n => n + 1)

/-- JavaScript `s.indexOf(c) > 0`. -/
def idxPos (c : Char) (xs : List Char) : Bool :=
  match idxOf c xs with
  | some n => n > 0
  | none => false

/-- `replace(/!$/, '')`. -/
def dropBangEnd (xs : List Char) : List Char :=
  match xs.reverse with
  | '!' :: t => t.reverse
  | _ => xs

/-- `/^\[.*\]$/` test. -/
def isArrayShape (xs : List Char) : Bool :=
  match xs with
  | '[' :: rest =>
    (match rest.reverse with
      | ']' :: mid => !mid.contains '\n'
      | _ => false)
  | _ => false

/-- `replace(/^\[|\]$/g, '')`: strip a leading `[` and a trailing `]`. -/
def stripOuterBrackets (xs : List Char) : List Char :=
  let a := if hasPre "[".data xs then xs.drop 1 else xs
  match a.reverse with
  | ']' :: t => t.reverse
  | _ => a

/-- Lodash `_.uniq`: deduplicate keeping first occurrences. -/
def eraseDupsAcc (seen : List (List Char)) : List (List Char) → List (List Char)
  | [] => []
  | x :: xs =>
    if seen.contains x then eraseDupsAcc seen xs
    else x :: eraseDupsAcc (x :: seen) xs

def eraseDupsL (l : List (List Char)) : List (List Char) := eraseDupsAcc [] l

/-- The positional-lookup loop of `replaceGenericWithType`
(`for i ...: if gLetters[i] == t return cTypes[i]`). -/
def findConcrete (gLetters cTypes : List (List Char)) (t : List Char) :
    Option (List Char) :=
  match gLetters, cTypes with
  | g :: gs, c :: cs => if g = t then some c else findConcrete gs cs t
  | _, _ => none

/-- `replaceGenericWithType`. -/
def replaceGenericWithType (genericType : List Char)
    (genericLetters : List (List Char)) (concreteType : List Char) :
    Except Err (List Char) :=
  let gType := genericType.filter (fun c => !isWs c)
  let gLetters := genericLetters.map (fun x => x.filter (fun c => !isWs c))
  let cTypes := (splitCh ',' concreteType).map (fun x => x.filter (fun c => !isWs c))
  let cTypesLength := cTypes.length
  let genericTypeIsArray := hasPre "[".data gType && idxPos ']' gType
  let endingChar := if endsBang gType then "!".data else ([] : List Char)
  if gLetters.length ≠ cTypesLength then
    .error (.arityMismatchConcrete (joinSep ",".data genericLetters) concreteType)
  else if gLetters.length = 1 && dropBangEnd gType = gLetters.headD [] then
    .ok ((cTypes.headD []) ++ endingChar)
  else if idxPos '<' gType && idxPos '>' gType then
    let type := if genericTypeIsArray then (matchBracketInner gType).getD [] else gType
    match matchToLastLt type with
    | none => .error .jsTypeError
    | some m0 =>
      let typeName := trimL (match m0.reverse with
        | '<' :: t => t.reverse
        | _ => m0)
      let types := (splitCh ',' ((matchAngle type).map (fun p => p.2) |>.getD [])).map trimL
      if types.length ≠ gLetters.length then
        .error (.arityMismatchGenericType (joinSep ",".data genericLetters) genericType)
      else do
        let matchingConcreteTypes ← types.mapM (fun t =>
          match findConcrete gLetters cTypes t with
          | some c => .ok c
          | none =>
            .error (.typeLetterMismatch genericType (joinSep ",".data genericLetters)))
        let result := typeName ++ '<' :: joinSep ",".data matchingConcreteTypes ++ ">".data
        if genericTypeIsArray then .ok ('[' :: result ++ "]".data ++ endingChar)
        else .ok (result ++ endingChar)
  else
    let type := if genericTypeIsArray then (matchBracketInner gType).getD [] else gType
    do
      let matchingConcreteTypes ← (splitCh ',' type).mapM (fun t0 =>
        let isRequired := endsBang t0
        let t := trimL (if isRequired then dropBangEnd t0 else t0)
        match findConcrete gLetters cTypes t with
        | some c => .ok (c ++ (if isRequired then "!".data else ([] : List Char)))
        | none =>
          .error (.typeLetterMismatch genericType (joinSep ",".data genericLetters)))
      let result := joinSep ",".data matchingConcreteTypes
      if genericTypeIsArray then .ok ('[' :: result ++ "]".data ++ endingChar)
      else .ok (result ++ endingChar)

/-- `isTypeGeneric` (exported utility). -/
def isTypeGeneric (type genericLetter : Option (List Char)) : Bool :=
  let sanitizedType := type.map jsSanitizeGen
  let sanitizedGenericLetter := genericLetter.map jsSanitizeGen
  if !jsTruthyS sanitizedType || !jsTruthyS sanitizedGenericLetter then false
  else
    let st := sanitizedType.getD []
    let sl := sanitizedGenericLetter.getD []
    if st = sl then true
    else if idxPos '<' st && idxPos '>' st then
      let genericLetters := splitCh ',' sl
      (splitCh ',' ((matchAngle st).map (fun p => p.2) |>.getD [])).any
        (fun x => genericLetters.any (fun y => y = trimL x))
    else (splitCh ',' sl).any (fun x => trimL x = st)

/-- `inheritingIsAllowed`. -/
def inheritingIsAllowed (obj subClass : SchemaObj) : Bool :=
  if obj.type = "TYPE".data then
    subClass.type = "TYPE".data || subClass.type = "INTERFACE".data
  else obj.type = subClass.type

/-- `getInterfaceWithAncestors` (memoised in
`memoizedInterfaceWithAncestors`; fuel bounds the recursion depth, which
the source leaves unguarded). -/
def getInterfaceWithAncestors (fuel : Nat) (iface : List Char)
    (schemaObjects : List SchemaObj) : M (List (List Char)) :=
  match fuel with
  | 0 => M.throw .fuel
  | fuel + 1 => do
    let s ← M.getSt
    match lookupA s.interfaceWithAncestors iface with
    | some v => pure v
    | none =>
      match schemaObjects.find? (fun x => x.name = iface) with
      | none => M.throw (.interfaceNotDefined iface)
      | some interfaceObj =>
        if interfaceObj.type ≠ "INTERFACE".data then M.throw (.notAnInterface iface)
        else do
          let res ← match interfaceObj.implementsL with
            | some impls =>
              if !impls.isEmpty then do
                let recs ← mmap
                  (fun i => getInterfaceWithAncestors fuel i schemaObjects) impls
                pure (eraseDupsL (iface :: impls ++ recs.flatten))
              else pure [iface]
            | none => pure [iface]
          M.modifySt (fun s =>
            { s with interfaceWithAncestors := insertA s.interfaceWithAncestors iface res })
          pure res

/-- `getObjWithInterfaces`.  The source calls it without `schemaObjects`
on the no-inheritance path, in which case the guard fails and the object
is returned untouched. -/
def getObjWithInterfaces (fuel : Nat) (obj : SchemaObj)
    (schemaObjects : Option (List SchemaObj)) : M SchemaObj :=
  match schemaObjects with
  | none => pure obj
  | some objs =>
    match obj.implementsL with
    | some impls =>
      if !impls.isEmpty then do
        let closures ← mmap (fun i => getInterfaceWithAncestors fuel i objs) impls
        let interfaceWithAncestors := eraseDupsL closures.flatten
        pure (SchemaObj.mk
          ⟨obj.type, none, obj.name, obj.metadata, none, obj.genericType,
            obj.blockProps, some interfaceWithAncestors, none,
            some obj.blockProps, none⟩ obj.inheritsF)
      else pure obj
    | none => pure obj

/-- `getObjWithExtensions` (memoised in `memoizedExtendedObject`; fuel
bounds the recursion depth, which the source leaves unguarded).  The
`inherits` field only ever holds the parsed name list when resolution
enters; the object-list shape is produced, never consumed, so meeting it
here would be a `TypeError` in the source's `indexOf`-based filtering. -/
def getObjWithExtensions (fuel : Nat) (obj : SchemaObj)
    (schemaObjects : List SchemaObj) : M SchemaObj :=
  match fuel with
  | 0 => M.throw .fuel
  | fuel + 1 =>
    match obj.inheritsF with
    | some (.names inhNames) => do
      let key := obj.type ++ '_' :: obj.name ++ '_' :: jsShowOpt obj.genericType
      let s ← M.getSt
      match lookupA s.extendedObject key with
      | some v => pure v
      | none => do
        let superClass := schemaObjects.filter (fun x => inhNames.contains x.name)
        let superClassNames := schemaObjects.map (fun x => x.name)
        let missingClasses := inhNames.filter (fun c => !superClassNames.contains c)
        match missingClasses with
        | c :: _ => M.throw (.cannotFindInherited (lowerL obj.type) obj.name c)
        | [] => do
          let superClassesWithInheritance ← mmap (fun subClass => do
              if !inheritingIsAllowed obj subClass then
                M.throw (.invalidInheritance (lowerL obj.type) obj.name
                  subClass.type subClass.name)
              else getObjWithExtensions fuel subClass schemaObjects) superClass
          let objWithInheritance := SchemaObj.mk
            ⟨obj.type, none, obj.name,
              (match obj.metadata with
                | some m => some m
                | none =>
                  match superClassesWithInheritance.getLast? with
                  | some lastSc => lastSc.metadata
                  | none => none),
              obj.directiveOpt, obj.genericType,
              (superClassesWithInheritance.map (fun sc => sc.blockProps)).flatten
                ++ obj.blockProps,
              some (eraseDupsL ((match obj.implementsL with
                | some l => l
                | none => []).filter (fun x => !x.isEmpty))),
              none, some obj.blockProps, none⟩
            (some (.objs superClassesWithInheritance))
          M.modifySt (fun s =>
            { s with extendedObject := insertA s.extendedObject key objWithInheritance })
          getObjWithInterfaces fuel objWithInheritance (some schemaObjects)
    | some (.objs _) => M.throw .jsTypeError
    | none => getObjWithInterfaces fuel obj none

/-- `parseSchemaObjToString`. -/
def parseSchemaObjToString (comments : Option (List Char)) (type : List Char)
    (name : List Char) (implementsL : Option (List (List Char)))
    (blockProps : List Property) (extend : Bool)
    (directive : Option (List Char)) : List Char :=
  let line1 := match comments with
    | some c => if c.isEmpty then [] else '\n' :: c
    | none => []
  let hasProps := !blockProps.isEmpty
  let line2 :=
    (if extend then "extend ".data else []) ++ lowerL type ++ ' ' ::
      replFirst "!".data [] name ++
      (match implementsL with
        | some l =>
          if !l.isEmpty then " implements ".data ++ joinSep ", ".data l else []
        | none => []) ++ ' ' ::
      (if hasProps then
        (match directive with
          | some dv => if dv.isEmpty then [] else ' ' :: dv ++ " ".data
          | none => []) ++ "\x7b".data
       else []) ++ " ".data
  let line3 := joinSep "\n".data (blockProps.map (fun prop =>
    "    ".data ++
      (if !prop.comments.isEmpty then prop.comments ++ "\n    ".data else []) ++
      prop.value))
  let line4 := if hasProps then "\x7d".data else []
  joinSep "\n".data ([line1, line2, line3, line4].filter (fun x => !x.isEmpty))

/-- Memo-threading fold of `createPropsWith` over a template's
properties. -/
def createPropsWith
    (oneProp : Property → List (List Char × GenEntry) →
      M (Property × List (List Char × GenEntry))) :
    List Property → List (List Char × GenEntry) →
      M (List Property × List (List Char × GenEntry))
  | [], memo => pure ([], memo)
  | p :: ps, memo => do
    let r ← oneProp p memo
    let rs ← createPropsWith oneProp ps r.2
    pure (r.1 :: rs.1, rs.2)

/-- The per-property body of `createNewSchemaObjectFromGeneric`'s
`blockProps` map; `recCall` is the recursive instantiation used for
properties depending on the enclosing declaration's generics. -/
def createOnePropWith
    (recCall : TypeDetails → List (List Char × GenEntry) →
      M (Option GenEntry × List (List Char × GenEntry)))
    (baseGenObj : SchemaObj) (concrete : List Char) (prop : Property)
    (memo : List (List Char × GenEntry)) :
    M (Property × List (List Char × GenEntry)) :=
  if isTypeGeneric (some prop.details.result.name) baseGenObj.genericType then do
    let newName ← liftE (replaceGenericWithType prop.details.result.name
      (splitCh ',' (baseGenObj.genericType.getD [])) concrete)
    let details0 : PropDetails :=
      ⟨prop.details.name, none, none,
        ⟨none, none, false, false, none, none, newName⟩⟩
    if prop.details.result.dependsOnParent then do
      let propTypeIsRequired := endsBang prop.details.result.name
      let propTypeName :=
        if propTypeIsRequired then dropBangEnd prop.details.result.name
        else prop.details.result.name
      let propTypeIsArray := isArrayShape propTypeName
      match prop.details.result.genericParentTypes with
      | none => M.throw .jsTypeError
      | some gpt => do
        let originalConcretePropType ←
          liftE (replaceGenericWithType propTypeName gpt concrete)
        let concretePropType :=
          if propTypeIsArray then stripOuterBrackets originalConcretePropType
          else originalConcretePropType
        let concreteGenProp ← getTypeDetails concretePropType
          prop.details.result.metadata none
        let r2 ← recCall concreteGenProp memo
        match r2.1 with
        | none => M.throw .jsTypeError
        | some entry =>
          let concreteGenPropName := entry.obj.name
          let n1 :=
            if propTypeIsArray then '[' :: concreteGenPropName ++ "]".data
            else concreteGenPropName
          let n2 := n1 ++ (if propTypeIsRequired then "!".data else ([] : List Char))
          let n3 := match prop.details.result.directive with
            | some dir => if dir.isEmpty then n2 else n2 ++ ' ' :: dir
            | none => n2
          let detailsR : PropDetails :=
            ⟨prop.details.name, none, none,
              ⟨some (match prop.details.result.directive with
                | some dir =>
                  if dir.isEmpty then prop.details.result.name
                  else prop.details.result.name ++ ' ' :: dir
                | none => prop.details.result.name),
                none, true, false, none, none, n3⟩⟩
          pure (⟨prop.comments, detailsR, getPropertyValue detailsR none⟩, r2.2)
    else
      pure (⟨prop.comments, details0, getPropertyValue details0 none⟩, memo)
  else pure (prop, memo)

/-- `createNewSchemaObjectFromGeneric`.  The memo dictionary is the
explicit `memoizedNewSchemaObjectFromGeneric` argument, threaded through
because the source mutates it in place (its missing-argument guard cannot
arise in this embedding, where the argument is always supplied). -/
def createNewSchemaObjectFromGeneric : Nat → TypeDetails → List SchemaObj →
    List (List Char × GenEntry) →
    M (Option GenEntry × List (List Char × GenEntry))
  | 0, _, _, _ => M.throw .fuel
  | fuel + 1, d, schemaBreakDown, memo =>
    if d.isGen then
      match lookupA memo d.name with
      | some e => pure (some e, memo)
      | none =>
        match d.originName with
        | none => M.throw .jsTypeError
        | some orig => do
          let genObjName := (splitStr "<".data orig).headD [] ++ "<".data
          let concreteType := (matchAngle orig).map (fun p => p.2)
          if !jsTruthyS concreteType then
            M.throw (.cannotFindGenericType orig)
          else
            let concrete := concreteType.getD []
            match schemaBreakDown.find? (fun x => hasPre genObjName x.name) with
            | none => M.throw (.cannotFindGenericDef genObjName)
            | some baseGenObj =>
              if !jsTruthyS baseGenObj.genericType then
                M.throw (.notGeneric baseGenObj.name)
              else do
                let r ← createPropsWith
                  (createOnePropWith
                    (fun d' m' =>
                      createNewSchemaObjectFromGeneric fuel d' schemaBreakDown m')
                    baseGenObj concrete)
                  baseGenObj.blockProps memo
                let blockProps := r.1
                let newSchemaObjStr := parseSchemaObjToString
                  baseGenObj.commentsOpt baseGenObj.type d.name
                  baseGenObj.implementsL blockProps false none
                let result : GenEntry :=
                  ⟨SchemaObj.mk
                    ⟨baseGenObj.type, none, d.name, none, none, none,
                      blockProps, baseGenObj.implementsL,
                      baseGenObj.commentsOpt, none, none⟩ none,
                    newSchemaObjStr⟩
                pure (some result, insertA r.2 d.name result)
    else pure (none, memo)

/-- The `forEach` over the filtered generic memo: each entry is
instantiated into the shared `resolvedGenericTypes` dictionary. -/
def genForEach (fuel : Nat) (objs : List SchemaObj) :
    List TypeDetails → List (List Char × GenEntry) →
      M (List (List Char × GenEntry))
  | [], memo => pure memo
  | v :: vs, memo => do
    let r ← createNewSchemaObjectFromGeneric fuel v objs memo
    genForEach fuel objs vs r.2

/-- `buildSchemaString`. -/
def buildSchemaString (fuel : Nat) (schemaObjs : List SchemaObj) :
    M (List Char) := do
  let part01 := joinSep "\n".data ((schemaObjs.filter (fun x =>
      !jsTruthyS x.genericType && x.type ≠ "ABSTRACT".data &&
        x.type ≠ "DIRECTIVE".data)).map
    (fun obj => parseSchemaObjToString obj.commentsOpt obj.type obj.name
      obj.implementsL obj.blockProps (obj.extendOpt.getD false)
      obj.directiveOpt))
  let s ← M.getSt
  let values := (s.genericSchemaObjects.map (fun kv => kv.2)).filter
    (fun x => !x.dependsOnParent)
  let resolvedGenericTypes ← genForEach fuel schemaObjs values []
  let part02 := joinSep "\n".data
    (resolvedGenericTypes.map (fun kv => kv.2.stringObj))
  let directives := joinSep [] ((schemaObjs.filter (fun x =>
      x.type = "DIRECTIVE".data && jsTruthyS x.rawOpt)).map
    (fun x => x.rawOpt.getD []))
  pure (directives ++ '\n' :: part01 ++ part02)

/-- `getSchemaParts`. -/
def getSchemaParts (fuel : Nat) (graphQlSchema : List Char)
    (metadata : Option (List Metadata)) (includeNewGenTypes : Bool) :
    M (List SchemaObj) := do
  let schemaBits ← getSchemaBits graphQlSchema
  let interfaces ← getInterfaces schemaBits metadata
  let abstracts ← getAbstracts schemaBits metadata
  let types ← getTypes schemaBits metadata
  let inputs ← getInputs schemaBits metadata
  let enums ← getEnums schemaBits metadata
  let scalars ← getScalars schemaBits metadata
  let unions ← getUnions schemaBits metadata
  let firstSchemaBreakDown :=
    interfaces ++ abstracts ++ types ++ inputs ++ enums ++ scalars ++ unions
  let resolved ← mmap (fun obj => getObjWithExtensions fuel obj firstSchemaBreakDown)
    firstSchemaBreakDown
  let withComments ← mmap (fun obj => do
      let cb ← getCommentsBits graphQlSchema
      pure (addComments obj cb)) resolved
  let v ← if includeNewGenTypes then do
      let s ← M.getSt
      let values := (s.genericSchemaObjects.map (fun kv => kv.2)).filter
        (fun x => !x.dependsOnParent)
      let resolvedGenericTypes ← genForEach fuel withComments values []
      pure (withComments ++ resolvedGenericTypes.map (fun kv => kv.2.obj))
    else pure withComments
  let directives := (metadata.getD []).filter (fun m => m.directive)
  if !directives.isEmpty then
    pure (v ++ directives.map (fun d => SchemaObj.mk
      ⟨"DIRECTIVE".data, some false, d.name, none, none, none, [], none,
        none, none, some (replAll "░".data "\n".data d.body)⟩ none))
  else pure v

/-- `resetMemory`: clears the five process-wide caches (the short-id
counter backs a modelled external and is no cache). -/
def resetMemory : M Unit := fun s =>
  (.ok (), { s with
    sCache := [], genericSchemaObjects := [], extendedObject := [],
    interfaceWithAncestors := [], genericNameAliases := [],
    aliasesMemo := none })

/-- `graphqls2s.getSchemaAST`.  `chain` of the missing `utilities.js` is
Modelled from the spec: plain eager function application in which "any
error aborts the call" — so a throw skips the trailing `resetMemory`. -/
def getSchemaAST (fuel : Nat) (graphQlSchema : List Char) : M (List SchemaObj) := do
  resetMemory
  let p := removeGraphMetadata graphQlSchema
  let v ← getSchemaParts fuel p.1 (some p.2) true
  resetMemory
  pure v

/-- `graphqls2s.transpileSchema` (same `chain` modelling as
`getSchemaAST`). -/
def transpileSchema (fuel : Nat) (graphQlSchema : List Char) : M (List Char) := do
  resetMemory
  let p := removeGraphMetadata graphQlSchema
  let parts ← getSchemaParts fuel p.1 (some p.2) false
  let v ← buildSchemaString fuel parts
  resetMemory
  pure v

/-! ### Concrete inputs and fixtures for the claims -/

/-- Substring containment (used to state what a transpiled text does and
does not contain). -/
def containsSub (needle hay : List Char) : Bool := (findSub needle hay).isSome

/-- The exact input text of claim C1 (each declaration on a single line,
`\n`-separated, as the claim writes it). -/
def c1Input : List Char :=
  "type Paged<T> \x7b items: [T] \x7d\ntype Product \x7b id: ID \x7d\ntype Query \x7b products: Paged<Product> \x7d".data

def c1Run : Except Err (List Char) × St := transpileSchema 50 c1Input St.fresh

def c1Out : List Char :=
  match c1Run.1 with
  | .ok v => v
  | .error _ => "ERROR".data

/-- The same three declarations formatted across multiple lines (body
lines separated from the braces by newlines). -/
def c1InputML : List Char :=
  "type Paged<T> \x7b\n  items: [T]\n\x7d\ntype Product \x7b\n  id: ID\n\x7d\ntype Query \x7b\n  products: Paged<Product>\n\x7d".data

def c1RunML : Except Err (List Char) × St := transpileSchema 50 c1InputML St.fresh

def c1OutML : List Char :=
  match c1RunML.1 with
  | .ok v => v
  | .error _ => "ERROR".data

/-- C6's input: a declaration that opens a block and never closes it. -/
def c6Input : List Char := "type Foo \x7b\n  id: ID".data

def c6Run : Except Err (List Char) × St := transpileSchema 50 c6Input St.fresh

def c6Out : List Char :=
  match c6Run.1 with
  | .ok v => v
  | .error _ => "ERROR".data

def c6AstRun : Except Err (List SchemaObj) × St := getSchemaAST 50 c6Input St.fresh

/-- C7's failing input: inheriting from an undeclared parent aborts
resolution mid-invocation. -/
def c7FailInput : List Char := "type B inherits A \x7b\n  id: ID\n\x7d".data

def c7FailRun : Except Err (List Char) × St := transpileSchema 50 c7FailInput St.fresh

/-- C7's succeeding input. -/
def c7OkInput : List Char := "type Product \x7b\n  id: ID\n\x7d".data

def c7OkRun : Except Err (List Char) × St := transpileSchema 50 c7OkInput St.fresh

/-- Fixture: a `TypeDetails` as `getTypeDetails` produces for a plain
non-generic type expression. -/
def fxTD (n : List Char) : TypeDetails := ⟨some n, none, false, false, some [], none, n⟩

/-- Fixture: a parsed property with a plain result type. -/
def fxProp (nm ty : List Char) : Property :=
  let d : PropDetails := ⟨nm, none, none, fxTD ty⟩
  ⟨[], d, getPropertyValue d none⟩

/-- Fixture: a parsed schema object (shape of `getSchemaObject`'s output). -/
def fxObj (kind nm : List Char) (inh : Option (List (List Char)))
    (impl : Option (List (List Char))) (props : List Property)
    (gen : Option (List Char)) : SchemaObj :=
  SchemaObj.mk ⟨kind, some false, nm, none, none, gen, props, impl, none, none, none⟩
    (inh.map InheritsF.names)

def fxP1 : Property := fxProp "p1".data "ID".data

def fxP2 : Property := fxProp "p2".data "String".data

def fxP3 : Property := fxProp "p3".data "Int".data

def fxA1 : SchemaObj := fxObj "TYPE".data "A1".data none none [fxP1] none

def fxA2 : SchemaObj := fxObj "TYPE".data "A2".data none none [fxP2] none

/-- C2: `B` inherits `[A2, A1]` — the inherits list names `A2` first, while
the parsed declaration list has `A1` first. -/
def fxB : SchemaObj :=
  fxObj "TYPE".data "B".data (some ["A2".data, "A1".data]) none [fxP3] none

def fxObjsC2 : List SchemaObj := [fxA1, fxA2, fxB]

def c2Props : List Property :=
  match (getObjWithExtensions 10 fxB fxObjsC2 St.fresh).1 with
  | .ok o => o.blockProps
  | .error _ => []

def fxA : SchemaObj := fxObj "TYPE".data "A".data none none [fxP1, fxP2] none

def fxBSingle : SchemaObj :=
  fxObj "TYPE".data "B2".data (some ["A".data]) none [fxP3] none

def c2SingleProps : List Property :=
  match (getObjWithExtensions 10 fxBSingle [fxA, fxBSingle] St.fresh).1 with
  | .ok o => o.blockProps
  | .error _ => []

def fxBDup : SchemaObj :=
  fxObj "TYPE".data "B3".data (some ["A".data]) none [fxP1] none

def c2DupProps : List Property :=
  match (getObjWithExtensions 10 fxBDup [fxA, fxBDup] St.fresh).1 with
  | .ok o => o.blockProps
  | .error _ => []

/-- C3: `I2 implements I1`, `T implements I2` (no inheritance), and
`T2 inherits Base implements I2`. -/
def fxI1 : SchemaObj := fxObj "INTERFACE".data "I1".data none none [fxP1] none

def fxI2 : SchemaObj :=
  fxObj "INTERFACE".data "I2".data none (some ["I1".data]) [fxP2] none

def fxT : SchemaObj := fxObj "TYPE".data "T".data none (some ["I2".data]) [fxP3] none

def fxBase : SchemaObj := fxObj "TYPE".data "Base".data none none [fxP1] none

def fxT2 : SchemaObj :=
  fxObj "TYPE".data "T2".data (some ["Base".data]) (some ["I2".data]) [fxP3] none

def fxObjsC3 : List SchemaObj := [fxI1, fxI2, fxT, fxBase, fxT2]

def c3Impl : Option (List (List Char)) :=
  match (getObjWithExtensions 10 fxT fxObjsC3 St.fresh).1 with
  | .ok o => o.implementsL
  | .error _ => none

def c3Impl2 : Option (List (List Char)) :=
  match (getObjWithExtensions 10 fxT2 fxObjsC3 St.fresh).1 with
  | .ok o => o.implementsL
  | .error _ => none

/-- C4/C8: the `Paged<T>` template, its `items: [T]` property as parsed
within the template (result type `[T]`, not generic itself, with the
template's letters as `genericParentTypes`), and the `Paged<Product>` /
`Pair<Product>` uses as registered in the generic memo. -/
def fxPropItems : Property :=
  let d : PropDetails :=
    ⟨"items".data, none, none,
      ⟨some "[T]".data, none, false, false, some [], some ["T".data], "[T]".data⟩⟩
  ⟨[], d, getPropertyValue d none⟩

def fxPagedT : SchemaObj :=
  fxObj "TYPE".data "Paged<T>".data none none [fxPropItems] (some "T".data)

def fxPagedProductTD : TypeDetails :=
  ⟨some "Paged<Product>".data, none, true, false, some [], none, "PagedProduct".data⟩

def c4Run1 :
    Except Err (Option GenEntry × List (List Char × GenEntry)) × St :=
  createNewSchemaObjectFromGeneric 10 fxPagedProductTD [fxPagedT] [] St.fresh

def c4Fallback : GenEntry :=
  ⟨SchemaObj.mk ⟨[], none, [], none, none, none, [], none, none, none, none⟩ none, []⟩

def c4Entry : GenEntry :=
  match c4Run1.1 with
  | .ok (some e, _) => e
  | _ => c4Fallback

def c4Memo : List (List Char × GenEntry) :=
  match c4Run1.1 with
  | .ok (_, m) => m
  | _ => []

def c4St : St := c4Run1.2

/-- C5: the inheritance cycle `A inherits B`, `B inherits A`. -/
def fxCycA : SchemaObj :=
  fxObj "TYPE".data "A".data (some ["B".data]) none [fxP1] none

def fxCycB : SchemaObj :=
  fxObj "TYPE".data "B".data (some ["A".data]) none [fxP2] none

def fxObjsC5 : List SchemaObj := [fxCycA, fxCycB]

/-- C8: a two-parameter template whose property uses a template letter,
and one whose property does not. -/
def fxPropT : Property :=
  let d : PropDetails :=
    ⟨"t".data, none, none,
      ⟨some "T".data, none, false, false, some [], some ["T".data, "U".data], "T".data⟩⟩
  ⟨[], d, getPropertyValue d none⟩

def fxPairTU : SchemaObj :=
  fxObj "TYPE".data "Pair<T,U>".data none none [fxPropT] (some "T,U".data)

def fxPropId : Property := fxProp "id".data "ID".data

def fxPairTUPlain : SchemaObj :=
  fxObj "TYPE".data "Pair<T,U>".data none none [fxPropId] (some "T,U".data)

def fxPairProductTD : TypeDetails :=
  ⟨some "Pair<Product>".data, none, true, false, some [], none, "PairProduct".data⟩

def c8PlainRun :
    Except Err (Option GenEntry × List (List Char × GenEntry)) × St :=
  createNewSchemaObjectFromGeneric 10 fxPairProductTD [fxPairTUPlain] [] St.fresh

def c8PlainOut : List Char :=
  match c8PlainRun.1 with
  | .ok (some e, _) => e.stringObj
  | _ => "ERROR".data

def c8LetterRun :
    Except Err (Option GenEntry × List (List Char × GenEntry)) × St :=
  createNewSchemaObjectFromGeneric 10 fxPairProductTD [fxPairTU] [] St.fresh

def c8LetterErr : Option Err :=
  match c8LetterRun.1 with
  | .error e => some e
  | .ok _ => none

/-- C8 end to end: the same arity mismatch through `transpileSchema`. -/
def c8Input : List Char :=
  "type Pair<T,U> \x7b\n  t: T\n\x7d\ntype Query \x7b\n  p: Pair<Product>\n\x7d".data

def c8TranspileRun : Except Err (List Char) × St :=
  transpileSchema 50 c8Input St.fresh

/-- C9: a schema whose declaration block holds a lone-comma property line
(no generics, no inheritance). -/
def c9Input : List Char := "type W \x7b\n  ,\n\x7d".data

def transpOut (inp : List Char) : List Char :=
  match transpileSchema 80 inp St.fresh with
  | (.ok v, _) => v
  | (.error _, _) => "ERRTRANSPILE".data

def astNamesOf (inp : List Char) : List (List Char) :=
  match getSchemaAST 80 inp St.fresh with
  | (.ok l, _) => l.map (fun o => o.name)
  | (.error _, _) => ["ERRAST".data]

def c9T1 : List Char := transpOut c9Input

def c9T2 : List Char := transpOut c9T1

/-- C9 positive instances: representative generic-free, inheritance-free
schemas on which transpiling the transpiled output reproduces it. -/
def c9Ok1 : List Char := "type Product \x7b\n  id: ID\n\x7d".data

def c9Ok2 : List Char := "enum Color \x7b\n  RED\n  GREEN\n\x7d".data

def c9Ok3 : List Char :=
  "interface Nameable \x7b\n  name: String\n\x7d\ntype P implements Nameable \x7b\n  id: ID\n\x7d".data

def c9Ok4 : List Char := "union Card = Visa | Master\n".data

def c9Ok5 : List Char := "scalar Date\ntype P \x7b\n  d: Date\n\x7d".data

def c9Ok6 : List Char := "# hello\ntype Foo \x7b\n  # inner\n  id: ID\n\x7d".data

def c9Ok7 : List Char := "type Q \x7b\n  f(filter: String): Int\n\x7d".data

def c9Ok8 : List Char := "type P @auth \x7b\n  id: ID @hide\n\x7d".data

def c9Ok9 : List Char := "extend type Query \x7b\n  more: Int\n\x7d".data

def c9Ok10 : List Char := "input Creds \x7b\n  user: String!\n\x7d".data

/-- C10's reading of "stripping brackets, whitespace, and `!` characters":
remove every such character.  This is the claim-side definition, kept
separate from the source's `jsSanitizeGen` to compare the two. -/
def stripClaim (xs : List Char) : List Char :=
  xs.filter (fun c => !(c = '[' || c = ']' || isWs c || c = '!'))

/-! ### Evaluation lemmas for the monad -/

theorem mrun_bind (x : M α) (f : α → M β) (s : St) :
    (x >>= f) s =
      match x s with
      | (.ok a, s') => f a s'
      | (.error e, s') => (.error e, s') := rfl

theorem mrun_pure (a : α) (s : St) : (pure a : M α) s = (.ok a, s) := rfl

theorem mrun_getSt (s : St) : M.getSt s = (.ok s, s) := rfl

theorem mrun_throw (e : Err) (s : St) :
    (M.throw e : M α) s = (.error e, s) := rfl

theorem mrun_modifySt (f : St → St) (s : St) :
    M.modifySt f s = (.ok (), f s) := rfl

theorem lookupA_insertA_self (m : List (List Char × α)) (k : List Char)
    (v : α) : lookupA (insertA m k v) k = some v := by
  induction m with
  | nil => simp [insertA, lookupA]
  | cons kv t ih =>
    by_cases h : kv.1 = k <;> simp [insertA, lookupA, h, ih]

/-! ### Theorems -/

/-- C1 (counterexample): on the exact input of the claim — three
single-line declarations joined by `\n` — `transpileSchema` returns just a
newline.  The block regexes expect a line break inside each `{...}` body,
so the first match swallows the `Paged`/`Product` pair as one bit and the
`Query` declaration matches nothing; the output therefore contains none of
the three claimed declarations (in particular no `type Product` and no
synthesized `type PagedProduct`). -/
theorem c1_counterexample :
    c1Out = "\n".data ∧
    containsSub "type Product".data c1Out = false ∧
    containsSub "PagedProduct".data c1Out = false ∧
    containsSub "type Query".data c1Out = false := by
  decide

/-- C1 (amended): with each declaration formatted across multiple lines —
a line break after every `{` and before every `}` — `transpileSchema`
emits `type Product { id: ID }`, `type Query { products: PagedProduct }`
and the synthesized `type PagedProduct { items: [Product] }` (up to the
renderer's exact whitespace), and the `Paged<T>` template itself is absent
(no `<` survives at all). -/
theorem c1_amended :
    c1OutML =
      "\ntype Product \x7b \n    id: ID\n\x7d\ntype Query \x7b \n    products: PagedProduct\n\x7dtype PagedProduct \x7b \n    items: [Product]\n\x7d".data ∧
    containsSub "type Product \x7b \n    id: ID\n\x7d".data c1OutML = true ∧
    containsSub "type Query \x7b \n    products: PagedProduct\n\x7d".data c1OutML = true ∧
    containsSub "type PagedProduct \x7b \n    items: [Product]\n\x7d".data c1OutML = true ∧
    containsSub "Paged<T>".data c1OutML = false ∧
    containsSub "<".data c1OutML = false := by
  decide

/-- C6 (counterexample): a declaration that opens `{` with no closing
brace does not make parsing fail — `transpileSchema` succeeds (the claim
asserts a `SyntaxError` is raised). -/
theorem c6_counterexample : c6Run.1 = Except.ok "\n".data := by
  decide

/-- C6 (amended): the unclosed declaration is silently dropped: the block
regexes simply never match it, both entry points succeed, the AST is
empty, and the output text mentions no `Foo`. -/
theorem c6_amended :
    c6Out = "\n".data ∧
    containsSub "Foo".data c6Out = false ∧
    (match c6AstRun.1 with | .ok l => l.length | .error _ => 99) = 0 := by
  decide

/-- C7 (counterexample): on an input whose resolution fails
(`type B inherits A` with no `A`), the invocation aborts with the
missing-ancestor error and the escape cache `_s` still holds the entries
the failed run wrote — the failure path performs no reset, refuting "every
resolution cache is reset on the failure path just as on the success
path". -/
theorem c7_counterexample :
    c7FailRun.1 =
      Except.error (.cannotFindInherited "type".data "B".data "A".data) ∧
    c7FailRun.2.sCache ≠ [] := by
  decide

/-- C7 (amended): caches are reset at the start of every invocation and
again at the end of successful ones — after a successful transpile all
five caches are empty — while after a failed invocation residual cache
state remains, cleared only by the next invocation's initial
`resetMemory`. -/
theorem c7_amended :
    ((match c7OkRun.1 with | .ok _ => true | .error _ => false) = true ∧
      c7OkRun.2.sCache.isEmpty = true ∧
      c7OkRun.2.genericSchemaObjects.isEmpty = true ∧
      c7OkRun.2.extendedObject.isEmpty = true ∧
      c7OkRun.2.interfaceWithAncestors.isEmpty = true ∧
      c7OkRun.2.genericNameAliases.isEmpty = true ∧
      c7OkRun.2.aliasesMemo = none) ∧
    c7FailRun.2.sCache ≠ [] ∧
    ((resetMemory c7FailRun.2).2.sCache.isEmpty = true ∧
      (resetMemory c7FailRun.2).2.genericSchemaObjects.isEmpty = true ∧
      (resetMemory c7FailRun.2).2.extendedObject.isEmpty = true ∧
      (resetMemory c7FailRun.2).2.interfaceWithAncestors.isEmpty = true ∧
      (resetMemory c7FailRun.2).2.genericNameAliases.isEmpty = true ∧
      (resetMemory c7FailRun.2).2.aliasesMemo = none) := by
  decide

/-- C2 (counterexample): `B` declares `inherits: [A2, A1]` while the
parsed declaration list is `[A1, A2, B]`; resolution yields the ancestor
properties in the declaration-list order `[p1, p2, p3]`, not the
inherits-list order `[p2, p1, p3]` the claim requires
(`getObjWithExtensions` collects ancestors by filtering `schemaObjects`,
so the inherits list's own order is ignored). -/
theorem c2_counterexample :
    c2Props = [fxP1, fxP2, fxP3] ∧ c2Props ≠ [fxP2, fxP1, fxP3] := by
  decide

/-- C2 (amended): the resolved properties of a declaration are the
concatenation of its ancestors' resolved properties — the ancestors taken
in the order they appear in the parsed declaration list, not in the order
the inherits list names them — followed by its own properties, with no
de-duplication by property name: `A [p1,p2]`, `B2 inherits [A]` own `[p3]`
resolves to `[p1,p2,p3]`; `B inherits [A2,A1]` (declared order `A1, A2`)
resolves to `[p1,p2,p3]`; and `B3 inherits [A]` redeclaring `p1` resolves
to `[p1,p2,p1]`, keeping the duplicate. -/
theorem c2_amended :
    c2SingleProps = [fxP1, fxP2, fxP3] ∧
    c2Props = [fxP1, fxP2, fxP3] ∧
    c2DupProps = [fxP1, fxP2, fxP1] := by
  decide

/-- C3 (counterexample): with `I2 implements I1` and `T implements I2` but
`T` inheriting nothing, the resolved `implements` of `T` is just `[I2]` —
`I1` is missing, because `getObjWithExtensions` reaches
`getObjWithInterfaces(obj)` without passing `schemaObjects` on the
no-inheritance path, whose guard then returns the object untouched. -/
theorem c3_counterexample :
    c3Impl = some ["I2".data] ∧ "I1".data ∉ ["I2".data] := by
  decide

/-- C8 (counterexample): instantiating the two-parameter template
`Pair<T,U>` at `Pair<Product>` (one argument) raises no error when no
property's type mentions a template parameter — `replaceGenericWithType`,
the only arity check, is reached per property and only for properties
whose type matches a generic letter; the instantiation succeeds and
produces `type PairProduct { id: ID }`. -/
theorem c8_counterexample :
    (match c8PlainRun.1 with | .ok _ => true | .error _ => false) = true ∧
    c8PlainOut = "type PairProduct \x7b \n    id: ID\n\x7d".data := by
  decide

/-- C8 (amended): the arity mismatch is raised exactly when instantiation
substitutes into a property whose type uses a template parameter: with
`Pair<T,U> { t: T }`, instantiating `Pair<Product>` throws the
invalid-argument error naming the letters `T,U` against the single
concrete argument `Product` — both directly in
`createNewSchemaObjectFromGeneric` and end to end through
`transpileSchema`. -/
theorem c8_amended :
    c8LetterErr = some (.arityMismatchConcrete "T,U".data "Product".data) ∧
    c8TranspileRun.1 =
      Except.error (.arityMismatchConcrete "T,U".data "Product".data) := by
  decide

/-- C10 (counterexample): both arguments `"]["` reduce to the empty string
after stripping brackets, whitespace and `!`, yet
`isTypeGeneric("][", "][")` returns `true`: the source's sanitiser only
removes a *leading* `[` and a *trailing* `]`, leaves `"]["` intact, and
the equality branch then fires. -/
theorem c10_counterexample :
    stripClaim "][".data = [] ∧
    isTypeGeneric (some "][".data) (some "][".data) = true := by
  decide

/-- C10 (amended): `isTypeGeneric` returns `false` — and, being total,
never throws — whenever either argument is `null`/`undefined` or reduces
to the empty string under the source's own sanitiser (which strips only a
leading `[`, a trailing `]` run with its surrounding spaces and bangs,
whitespace, and `!`); the claim's blanket "stripping brackets" reading
fails only on residues of mis-nested brackets such as `"]["`. -/
theorem c10_amended (t gl : Option (List Char))
    (h : t.map jsSanitizeGen = none ∨ t.map jsSanitizeGen = some [] ∨
      gl.map jsSanitizeGen = none ∨ gl.map jsSanitizeGen = some []) :
    isTypeGeneric t gl = false := by
  have ht : jsTruthyS (t.map jsSanitizeGen) = false ∨
      jsTruthyS (gl.map jsSanitizeGen) = false := by
    rcases h with h | h | h | h <;> rw [h] <;> simp [jsTruthyS]
  unfold isTypeGeneric
  rcases ht with h' | h' <;> simp [h']

theorem c10_amended_witness :
    ((some "[]".data : Option (List Char)).map jsSanitizeGen = none ∨
      (some "[]".data : Option (List Char)).map jsSanitizeGen = some [] ∨
      (some "T".data : Option (List Char)).map jsSanitizeGen = none ∨
      (some "T".data : Option (List Char)).map jsSanitizeGen = some []) ∧
    isTypeGeneric (some "[]".data) (some "T".data) = false :=
  ⟨by decide, c10_amended (some "[]".data) (some "T".data) (by decide)⟩

/-- C3 (amended): the interface closure is applied only to declarations
that inherit something: a declaration with no `inherits` is returned by
`getObjWithExtensions` completely untouched (state included), its
`implements` staying as written; for a declaration that does inherit, the
transitive, deduplicated closure is computed — `T2 inherits Base
implements I2` with `I2 implements I1` resolves to
`implements = [I2, I1]`. -/
theorem c3_amended :
    (∀ (fuel : Nat) (obj : SchemaObj) (objs : List SchemaObj) (st : St),
      obj.inheritsF = none →
      getObjWithExtensions (fuel + 1) obj objs st = (.ok obj, st)) ∧
    c3Impl2 = some ["I2".data, "I1".data] := by
  constructor
  · intro fuel obj objs st h
    unfold getObjWithExtensions
    rw [h]
    rfl
  · decide

theorem c3_amended_witness :
    fxT.inheritsF = none ∧
    getObjWithExtensions 1 fxT fxObjsC3 St.fresh = (.ok fxT, St.fresh) :=
  ⟨rfl, c3_amended.1 0 fxT fxObjsC3 St.fresh rfl⟩

/-- C5: on the cycle `A inherits B`, `B inherits A`, resolution from a
fresh state recurses without bound — in the fuel embedding it exhausts
every fuel budget, never producing a result and never raising any
inheritance error (the memo is consulted before recursion but only
written after it, so a cycle is never caught): the source has no
`CyclicInheritanceError`; a real run dies by stack overflow. -/
theorem c5_theorem :
    ∀ n : Nat,
      getObjWithExtensions n fxCycA fxObjsC5 St.fresh = (.error .fuel, St.fresh) ∧
      getObjWithExtensions n fxCycB fxObjsC5 St.fresh = (.error .fuel, St.fresh) := by
  intro n
  induction n with
  | zero => exact ⟨rfl, rfl⟩
  | succ n ih =>
    constructor
    · rw [getObjWithExtensions]
      simp only [show fxCycA.inheritsF = some (.names ["B".data]) from rfl]
      simp only [mrun_bind, mrun_getSt]
      simp only [show (lookupA St.fresh.extendedObject
        (fxCycA.type ++ '_' :: fxCycA.name ++ '_' :: jsShowOpt fxCycA.genericType) :
          Option SchemaObj) = none from rfl]
      simp only [show List.filter
        (fun x => (["B".data] : List (List Char)).contains x.name) fxObjsC5 =
          [fxCycB] from rfl]
      simp only [show List.filter
        (fun c => !(List.map (fun x => SchemaObj.name x) fxObjsC5).contains c)
          ["B".data] = [] from rfl]
      rw [mrun_bind]
      have hm : (mmap
          (fun subClass =>
            if (!inheritingIsAllowed fxCycA subClass) = true then
              M.throw (Err.invalidInheritance (lowerL fxCycA.type) fxCycA.name
                subClass.type subClass.name)
            else getObjWithExtensions n subClass fxObjsC5)
          [fxCycB]) St.fresh = (.error .fuel, St.fresh) := by
        simp only [mmap, mrun_bind]
        simp only [show (!inheritingIsAllowed fxCycA fxCycB) = false from rfl,
          Bool.false_eq_true, if_false]
        rw [ih.2]
      rw [hm]
    · rw [getObjWithExtensions]
      simp only [show fxCycB.inheritsF = some (.names ["A".data]) from rfl]
      simp only [mrun_bind, mrun_getSt]
      simp only [show (lookupA St.fresh.extendedObject
        (fxCycB.type ++ '_' :: fxCycB.name ++ '_' :: jsShowOpt fxCycB.genericType) :
          Option SchemaObj) = none from rfl]
      simp only [show List.filter
        (fun x => (["A".data] : List (List Char)).contains x.name) fxObjsC5 =
          [fxCycA] from rfl]
      simp only [show List.filter
        (fun c => !(List.map (fun x => SchemaObj.name x) fxObjsC5).contains c)
          ["A".data] = [] from rfl]
      rw [mrun_bind]
      have hm : (mmap
          (fun subClass =>
            if (!inheritingIsAllowed fxCycB subClass) = true then
              M.throw (Err.invalidInheritance (lowerL fxCycB.type) fxCycB.name
                subClass.type subClass.name)
            else getObjWithExtensions n subClass fxObjsC5)
          [fxCycA]) St.fresh = (.error .fuel, St.fresh) := by
        simp only [mmap, mrun_bind]
        simp only [show (!inheritingIsAllowed fxCycB fxCycA) = false from rfl,
          Bool.false_eq_true, if_false]
        rw [ih.1]
      rw [hm]

/-- A successful generic instantiation always leaves itself in the memo
under its alias name: on the compute path the entry is inserted before
returning, and on the memo-hit path it was already there. -/
theorem createNew_memo_stable (fuel : Nat) (d : TypeDetails)
    (objs : List SchemaObj) (memo memo' : List (List Char × GenEntry))
    (st st' : St) (e : GenEntry) (hgen : d.isGen = true)
    (h : createNewSchemaObjectFromGeneric fuel d objs memo st =
      (.ok (some e, memo'), st')) :
    lookupA memo' d.name = some e := by
  cases fuel with
  | zero => exact absurd h (by simp [createNewSchemaObjectFromGeneric, mrun_throw])
  | succ n =>
    rw [createNewSchemaObjectFromGeneric] at h
    rw [hgen] at h
    simp only [if_true] at h
    cases hl : lookupA memo d.name with
    | some e0 =>
      rw [hl] at h
      simp only [mrun_pure, Prod.mk.injEq, Except.ok.injEq, Option.some.injEq] at h
      obtain ⟨⟨he, hm⟩, hst⟩ := h
      rw [← hm, ← he, hl]
    | none =>
      rw [hl] at h
      cases ho : d.originName with
      | none => rw [ho] at h; exact absurd h (by simp [mrun_throw])
      | some orig =>
        rw [ho] at h
        simp only [mrun_bind] at h
        by_cases hc : (!jsTruthyS ((matchAngle orig).map (fun p => p.2))) = true
        · rw [if_pos hc] at h; exact absurd h (by simp [mrun_throw])
        · rw [if_neg hc] at h
          cases hf : objs.find? (fun x =>
              hasPre ((splitStr "<".data orig).headD [] ++ "<".data) x.name) with
          | none => rw [hf] at h; exact absurd h (by simp [mrun_throw])
          | some baseGenObj =>
            rw [hf] at h
            simp only [] at h
            by_cases hg : (!jsTruthyS baseGenObj.genericType) = true
            · rw [if_pos hg] at h; exact absurd h (by simp [mrun_throw])
            · rw [if_neg hg] at h
              simp only [mrun_bind] at h
              split at h
              · simp only [mrun_pure, Prod.mk.injEq, Except.ok.injEq,
                  Option.some.injEq] at h
                obtain ⟨⟨he, hm⟩, hst⟩ := h
                rw [← hm, ← he]
                exact lookupA_insertA_self _ _ _
              · simp at h

/-- C4: once an instantiation of a generic use has succeeded, repeating it
within the same invocation (the memo dictionary threaded through, as
`buildSchemaString`/`getSchemaParts` do) returns the very same memoised
entry without touching the state — at most one instantiation is created
per distinct alias name — and the default alias of `Paged<Product>` is
`PagedProduct` (base name concatenated with the argument names). -/
theorem c4_theorem (fuel1 fuel2 : Nat) (d : TypeDetails)
    (objs : List SchemaObj) (memo memo' : List (List Char × GenEntry))
    (st st' : St) (e : GenEntry) (hgen : d.isGen = true)
    (h : createNewSchemaObjectFromGeneric fuel1 d objs memo st =
      (.ok (some e, memo'), st')) :
    createNewSchemaObjectFromGeneric (fuel2 + 1) d objs memo' st' =
      (.ok (some e, memo'), st') ∧
    genericDefaultNameAlias "Paged<Product>".data = "PagedProduct".data := by
  constructor
  · have hm := createNew_memo_stable fuel1 d objs memo memo' st st' e hgen h
    rw [createNewSchemaObjectFromGeneric, hgen]
    simp only [if_true]
    rw [hm]
    rfl
  · rfl

/-- C9 (counterexample): for `type W { , }` — no generics, no inheritance
— the lone-comma line parses into a property whose rendered value is
empty, so the first transpile prints an empty block, the second transpile
parses that block as empty and prints `W` without braces, and the two
outputs disagree both textually and in their resolved declarations: the
first output still resolves to the declaration `W`, the second resolves to
nothing. -/
theorem c9_counterexample :
    c9T1 = "\ntype W \x7b \n    \n\x7d".data ∧
    c9T2 = "\ntype W  ".data ∧
    c9T1 ≠ c9T2 ∧
    astNamesOf c9T1 = ["W".data] ∧
    astNamesOf c9T2 = [] := by
  decide

/-- C9 (amended): re-transpiling reproduces the first output verbatim —
hence the same resolved declarations — on schemas whose declarations all
keep a non-empty rendered property line, verified here across the
declaration kinds and features (type, enum, interface with implements,
union, scalar, leading and in-block comments, parameters, directives,
extend, input with `!`); idempotence fails in general only through blocks
that render empty, which the next transpile degrades or drops. -/
theorem c9_amended :
    transpOut (transpOut c9Ok1) = transpOut c9Ok1 ∧
    transpOut (transpOut c9Ok2) = transpOut c9Ok2 ∧
    transpOut (transpOut c9Ok3) = transpOut c9Ok3 ∧
    transpOut (transpOut c9Ok4) = transpOut c9Ok4 ∧
    transpOut (transpOut c9Ok5) = transpOut c9Ok5 ∧
    transpOut (transpOut c9Ok6) = transpOut c9Ok6 ∧
    transpOut (transpOut c9Ok7) = transpOut c9Ok7 ∧
    transpOut (transpOut c9Ok8) = transpOut c9Ok8 ∧
    transpOut (transpOut c9Ok9) = transpOut c9Ok9 ∧
    transpOut (transpOut c9Ok10) = transpOut c9Ok10 := by
  decide

theorem c4_witness :
    fxPagedProductTD.isGen = true ∧
    createNewSchemaObjectFromGeneric 10 fxPagedProductTD [fxPagedT] [] St.fresh =
      (.ok (some c4Entry, c4Memo), c4St) ∧
    createNewSchemaObjectFromGeneric 3 fxPagedProductTD [fxPagedT] c4Memo c4St =
      (.ok (some c4Entry, c4Memo), c4St) :=
  ⟨rfl, rfl,
    (c4_theorem 10 2 fxPagedProductTD [fxPagedT] [] c4Memo St.fresh c4St c4Entry
      rfl rfl).1⟩

end G2S
